import Mathlib

/-!
Tunnel client core (`client.go`, `topology.go`)

A shallow embedding of the start-up of the client (topology fetch, region
selection, first gate), the gate failover, the data-connection handshake, the
receive loop of the control stream with its error handling, and the hand-off
of connections to `Accept`, with the properties proved about them.

Conventions of the embedding:

* a Go `string` is an immutable byte sequence, modelled as `List Nat`
  (`GoString`); string literals are given through `utf8`;
* a `time.Duration` is an `Int` (nanoseconds);
* a pointer into `topology.Regions` / `c.region.Gates` is the index of the
  element it points to;
* network calls are answered by explicit outcome arguments, and what the code
  does to the outside world is recorded as a list of events.
-/

set_option autoImplicit false

namespace Pinge

/-! ## Data model -/

/-- A Go `string`: a sequence of bytes. -/
abbrev GoString := List Nat

/-- The UTF-8 encoding of one code point. -/
def utf8EncodeRune (c : Nat) : List Nat :=
  if c < 0x80 then [c]
  else if c < 0x800 then [0xC0 + c / 64, 0x80 + c % 64]
  else if c < 0x10000 then [0xE0 + c / 4096, 0x80 + c / 64 % 64, 0x80 + c % 64]
  else [0xF0 + c / 262144, 0x80 + c / 4096 % 64, 0x80 + c / 64 % 64, 0x80 + c % 64]

/-- The UTF-8 bytes of a list of characters. -/
def utf8Chars : List Char → List Nat
  | [] => []
  | c :: cs => utf8EncodeRune c.toNat ++ utf8Chars cs

/-- The bytes of a string literal, as the Go compiler stores it. -/
def utf8 (s : String) : GoString := utf8Chars s.toList

/-- The struct `TopologyGate` of `topology.go`. -/
structure TopologyGate where
  SecondaryAddress : GoString
  PrimaryAddress : GoString
  Busy : Bool
  deriving DecidableEq, Repr

/-- The struct `TopologyRegion` of `topology.go`. -/
structure TopologyRegion where
  Id : GoString
  PingHost : GoString
  Gates : List TopologyGate
  deriving DecidableEq, Repr

/-- The struct `TopologyConfig` of `topology.go`. -/
structure TopologyConfig where
  Regions : List TopologyRegion
  deriving DecidableEq, Repr

/-- A Go `error` value, identified by the text `Error()` returns. -/
structure GoError where
  text : GoString
  deriving DecidableEq, Repr

/-- The error `ErrorAllGatesBusy = errors.New("all gates busy")`. -/
def ErrorAllGatesBusy : GoError := ⟨utf8 "all gates busy"⟩

/-- The fields of `Client` that the modelled methods read or write.  `region`
is the region `InitClient` stored (the methods below run only after that
assignment); the channel `accepter` and the context `ctx` are represented by
the arguments of the functions that use them. -/
structure Client where
  gateHost : GoString
  initHost : GoString
  token : GoString
  «private» : Bool
  serviceName : GoString
  customDomain : GoString
  topologyAddress : GoString
  region : TopologyRegion
  uri : GoString
  deriving DecidableEq, Repr

/-! ## `selectRegion` -/

/-- What probing one region gives: `grpc.Dial` fails, the `Ping` call fails,
or the ping returns and `time.Since(startTime)` is `execTime`. -/
inductive Probe where
  | dialError
  | pingError
  | ok (execTime : Int)
  deriving DecidableEq, Repr

/-- The `for i, region := range topology.Regions` loop of `selectRegion`.
`i` is the index of the head of the remaining regions; `best` is
`(bestRegion, bestPingTime)`, with `none` for `bestRegion == nil`. -/
def selectRegionLoop (probe : Nat → Probe) :
    List TopologyRegion → Nat → Option (Nat × Int) → Option (Nat × Int)
  | [], _, best => best
  | _ :: rest, i, best =>
    match probe i with
    | .dialError => selectRegionLoop probe rest (i + 1) best
    | .pingError => selectRegionLoop probe rest (i + 1) best
    | .ok execTime =>
      match best with
      | none => selectRegionLoop probe rest (i + 1) (some (i, execTime))
      | some (bestRegion, bestPingTime) =>
        if execTime < bestPingTime then
          selectRegionLoop probe rest (i + 1) (some (i, execTime))
        else
          selectRegionLoop probe rest (i + 1) (some (bestRegion, bestPingTime))

/-- The method `Client.selectRegion`: the index of the returned region in
`topology.Regions`, or the error.  `probe i` is the outcome of probing the
region at index `i`; the diagnostics printed for a failed probe are left
out. -/
def selectRegion (topology : TopologyConfig) (probe : Nat → Probe) : Except GoError Nat :=
  match selectRegionLoop probe topology.Regions 0 none with
  | none => .error ⟨utf8 "cannot find available gates"⟩
  | some (bestRegion, _) => .ok bestRegion

/-! ## `busyGate` -/

/-- The `for i, gate := range c.region.Gates` loop of `busyGate`.  `gate` is
the copy of the element at index `i` taken when the iteration starts; the
loop writes `Busy` of that element only.  The result is the gate list after
the loop and `newGate` (`none` for `nil`). -/
def busyGateLoop (initHost : GoString) :
    List TopologyGate → Nat → Option Nat → List TopologyGate × Option Nat
  | [], _, newGate => ([], newGate)
  | gate :: rest, i, newGate =>
    if gate.PrimaryAddress = initHost then
      let r := busyGateLoop initHost rest (i + 1) newGate
      ({ gate with Busy := true } :: r.1, r.2)
    else if !gate.Busy then
      let r := busyGateLoop initHost rest (i + 1) (some i)
      (gate :: r.1, r.2)
    else
      let r := busyGateLoop initHost rest (i + 1) newGate
      (gate :: r.1, r.2)

/-- The gate `busyGate` points `newGate` at when its loop ends: an index into
`c.region.Gates`, or `none` for `nil`. -/
def newGate (c : Client) : Option Nat :=
  (busyGateLoop c.initHost c.region.Gates 0 none).2

/-- The method `Client.busyGate`: the returned error (`none` for `nil`) and
the client after the call.  `newGate` always points into the gate list
(`newGate_spec`), so the lookup of the element it points to never fails. -/
def busyGate (c : Client) : Option GoError × Client :=
  let r := busyGateLoop c.initHost c.region.Gates 0 none
  let c1 : Client := { c with region := { c.region with Gates := r.1 } }
  match r.2 with
  | none => (some ErrorAllGatesBusy, c1)
  | some i =>
    match c1.region.Gates[i]? with
    | none => (some ErrorAllGatesBusy, c1)
    | some g => (none, { c1 with gateHost := g.SecondaryAddress, initHost := g.PrimaryAddress })

/-- The client after `n` calls of `busyGate` in a row. -/
def failovers : Nat → Client → Client
  | 0, c => c
  | n + 1, c => failovers n (busyGate c).2

/-- A gate that `busyGate` may switch to: not the current one (by primary
address) and not busy. -/
def candidate (initHost : GoString) (g : TopologyGate) : Bool :=
  !(g.PrimaryAddress == initHost) && !g.Busy

/-- What the loop of `busyGate` does to one list entry: the entry of the
current gate (by primary address) has `Busy` set, any other entry is kept. -/
def markBusy (initHost : GoString) (g : TopologyGate) : TopologyGate :=
  if g.PrimaryAddress = initHost then { g with Busy := true } else g

/-- Invariant of the selection loop: `best` is the first minimum of the
successful probes with index in `[lo, i)`. -/
def BestSoFar (probe : Nat → Probe) (lo i : Nat) (best : Option (Nat × Int)) : Prop :=
  match best with
  | none => ∀ j, lo ≤ j → j < i → ∀ t, probe j ≠ .ok t
  | some (b, bt) =>
    lo ≤ b ∧ b < i ∧ probe b = .ok bt ∧
    (∀ j, lo ≤ j → j < i → ∀ t, probe j = .ok t → bt ≤ t) ∧
    (∀ j, lo ≤ j → j < b → ∀ t, probe j = .ok t → bt < t)

/-! ## `unicode/utf8` and `encoding/json` of the Go standard library

`getConnection` builds the handshake with `json.Marshal`.  The functions
below follow the library code that call runs for a `connectOptions` value. -/

/-- The constant `utf8.RuneError`. -/
def RuneError : Nat := 0xFFFD

/-- The table `first` of `unicode/utf8`: information about the first byte of
an encoding (`0xF0` ASCII, `0xF1` invalid, otherwise size in the low bits and
accept-range index in the high bits). -/
def first (b : Nat) : Nat :=
  if b < 0x80 then 0xF0
  else if b < 0xC2 then 0xF1
  else if b < 0xE0 then 0x02
  else if b = 0xE0 then 0x13
  else if b < 0xED then 0x03
  else if b = 0xED then 0x23
  else if b < 0xF0 then 0x03
  else if b = 0xF0 then 0x34
  else if b < 0xF4 then 0x04
  else if b = 0xF4 then 0x44
  else 0xF1

/-- The table `acceptRanges` of `unicode/utf8`: the range `(lo, hi)` allowed
for the second byte. -/
def acceptRanges (k : Nat) : Nat × Nat :=
  match k with
  | 0 => (0x80, 0xBF)
  | 1 => (0xA0, 0xBF)
  | 2 => (0x80, 0x9F)
  | 3 => (0x90, 0xBF)
  | 4 => (0x80, 0x8F)
  | _ => (0, 0)

/-- The function `utf8.DecodeRuneInString`: the rune that starts `s` and its width in
bytes; `(RuneError, 1)` for an invalid encoding. -/
def DecodeRuneInString (s : List Nat) : Nat × Nat :=
  let n := s.length
  if n < 1 then (RuneError, 0)
  else
    let s0 := s.getD 0 0
    let x := first s0
    if x ≥ 0xF0 then
      (if x = 0xF0 then s0 else RuneError, 1)
    else
      let sz := x &&& 7
      let accept := acceptRanges (x >>> 4)
      if n < sz then (RuneError, 1)
      else
        let s1 := s.getD 1 0
        if s1 < accept.1 ∨ accept.2 < s1 then (RuneError, 1)
        else if sz ≤ 2 then (((s0 &&& 0x1F) <<< 6) ||| (s1 &&& 0x3F), 2)
        else
          let s2 := s.getD 2 0
          if s2 < 0x80 ∨ 0xBF < s2 then (RuneError, 1)
          else if sz ≤ 3 then
            (((s0 &&& 0x0F) <<< 12) ||| ((s1 &&& 0x3F) <<< 6) ||| (s2 &&& 0x3F), 3)
          else
            let s3 := s.getD 3 0
            if s3 < 0x80 ∨ 0xBF < s3 then (RuneError, 1)
            else
              (((s0 &&& 0x07) <<< 18) ||| ((s1 &&& 0x3F) <<< 12) ||| ((s2 &&& 0x3F) <<< 6)
                ||| (s3 &&& 0x3F), 4)

/-- The digit `"0123456789abcdef"[n]` of `encoding/json`. -/
def hex (n : Nat) : Nat := if n < 10 then 48 + n else 87 + n

/-- The table `htmlSafeSet` of `encoding/json`: the ASCII bytes that are
written unescaped, which are the bytes from space to `0x7f` other than the
double quote, `&`, `<`, `>` and the backslash. -/
def htmlSafeSet (b : Nat) : Bool :=
  decide (0x20 ≤ b) && decide (b < 0x80) &&
    !(b == 0x22 || b == 0x26 || b == 0x3C || b == 0x3E || b == 0x5C)

/-- The `switch b` of `appendString`: the escape written for an ASCII byte
that is not in `htmlSafeSet`. -/
def escapeByte (b : Nat) : List Nat :=
  if b = 0x5C ∨ b = 0x22 then [0x5C, b]
  else if b = 0x08 then [0x5C, 0x62]
  else if b = 0x0C then [0x5C, 0x66]
  else if b = 0x0A then [0x5C, 0x6E]
  else if b = 0x0D then [0x5C, 0x72]
  else if b = 0x09 then [0x5C, 0x74]
  else [0x5C, 0x75, 0x30, 0x30, hex (b >>> 4), hex (b &&& 0xF)]

/-- The loop of `appendString` of `encoding/json` with `escapeHTML` set, on
the part of `src` from index `i` on: the bytes it appends to `dst` (the
stretches `src[start:i]` it copies and the escapes, in order).  Every
iteration consumes at least one byte, so `fuel = len(src) - i` iterations
suffice. -/
def appendStringLoop : Nat → List Nat → List Nat
  | 0, _ => []
  | _ + 1, [] => []
  | fuel + 1, b :: rest =>
    if b < 0x80 then
      if htmlSafeSet b then b :: appendStringLoop fuel rest
      else escapeByte b ++ appendStringLoop fuel rest
    else
      let r := DecodeRuneInString ((b :: rest).take 4)
      if r.1 = RuneError ∧ r.2 = 1 then
        utf8 "\\ufffd" ++ appendStringLoop fuel rest
      else if r.1 = 0x2028 ∨ r.1 = 0x2029 then
        utf8 "\\u202" ++ hex (r.1 &&& 0xF) :: appendStringLoop fuel ((b :: rest).drop r.2)
      else
        (b :: rest).take r.2 ++ appendStringLoop fuel ((b :: rest).drop r.2)

/-- The call `appendString(nil, src, true)` of `encoding/json`: the JSON string
literal for `src`. -/
def appendString (src : GoString) : List Nat :=
  0x22 :: appendStringLoop src.length src ++ [0x22]

/-- The call `strconv.AppendInt(nil, v, 10)`. -/
def AppendInt (v : Int) : List Nat :=
  if v < 0 then 0x2D :: (Nat.toDigits 10 v.natAbs).map Char.toNat
  else (Nat.toDigits 10 v.natAbs).map Char.toNat

/-- A field value of one of the kinds `connectOptions` has. -/
inductive Value where
  | int (v : Int)
  | string (s : GoString)
  | bool (b : Bool)
  deriving DecidableEq, Repr

/-- A struct field as `encoding/json` sees it: the name of the `json` tag
and whether the tag has `omitempty`. -/
structure Field where
  name : GoString
  omitEmpty : Bool
  deriving DecidableEq, Repr

/-- The function `isEmptyValue` of `encoding/json`. -/
def isEmptyValue : Value → Bool
  | .int v => v == 0
  | .string s => s.length == 0
  | .bool b => b == false

/-- The encoder of a field value: `intEncoder`, `stringEncoder`,
`boolEncoder`. -/
def encodeValue : Value → List Nat
  | .int v => AppendInt v
  | .string s => appendString s
  | .bool b => if b then utf8 "true" else utf8 "false"

/-- The field loop of `structEncoder.encode`: the bytes written for the
remaining fields and the final value of `next` (`0x7B` is the opening brace,
`0x2C` the comma).  The field name is written as `"` + name + `":`, which is
what `nameEscHTML` holds for a name without `<`, `>`, `&`. -/
def structEncodeLoop : List (Field × Value) → Nat → List Nat × Nat
  | [], next => ([], next)
  | (f, fv) :: rest, next =>
    if f.omitEmpty && isEmptyValue fv then structEncodeLoop rest next
    else
      let r := structEncodeLoop rest 0x2C
      (next :: 0x22 :: f.name ++ utf8 "\":" ++ encodeValue fv ++ r.1, r.2)

/-- The method `structEncoder.encode`. -/
def structEncode (fields : List (Field × Value)) : List Nat :=
  let r := structEncodeLoop fields 0x7B
  if r.2 = 0x7B then r.1 ++ utf8 "\x7b\x7d" else r.1 ++ [0x7D]

/-! ## `getConnection` -/

/-- The struct `connectOptions` of `client.go`. -/
structure connectOptions where
  Kind : Int
  Token : GoString
  Service : GoString
  Private : Bool
  deriving DecidableEq, Repr

/-- The fields of `connectOptions` with their `json` tags, in declaration
order, and the values of `v`. -/
def connectOptions.fields (v : connectOptions) : List (Field × Value) :=
  [(⟨utf8 "kind", false⟩, .int v.Kind),
   (⟨utf8 "token", false⟩, .string v.Token),
   (⟨utf8 "service", false⟩, .string v.Service),
   (⟨utf8 "private", true⟩, .bool v.Private)]

/-- The call of `json.Marshal` on a `connectOptions` value; it returns no error for this
type. -/
def Marshal (v : connectOptions) : List Nat := structEncode v.fields

/-- What the network answers to `getConnection`: the error of `net.Dial` and
the error of `conn.Write`, `none` for `nil`. -/
structure NetOutcome where
  dialErr : Option GoError
  writeErr : Option GoError
  deriving DecidableEq, Repr

/-- A network call of `getConnection`. -/
inductive NetEvent where
  | dial (network address : GoString)
  | write (address : GoString) (b : List Nat)
  deriving DecidableEq, Repr

/-- A `net.Conn`, identified by the address dialed. -/
structure Conn where
  address : GoString
  deriving DecidableEq, Repr

/-- The method `Client.getConnection`: the result and the network calls made, in
order. -/
def getConnection (c : Client) (serviceName token : GoString) (net : NetOutcome) :
    Except GoError Conn × List NetEvent :=
  match net.dialErr with
  | some err => (.error err, [.dial (utf8 "tcp") c.gateHost])
  | none =>
    let kind : Int := 3
    let b := Marshal { Kind := kind, Token := token, Service := serviceName,
                       Private := c.«private» }
    let b := b ++ [10]
    match net.writeErr with
    | some err => (.error err, [.dial (utf8 "tcp") c.gateHost, .write c.gateHost b])
    | none => (.ok ⟨c.gateHost⟩, [.dial (utf8 "tcp") c.gateHost, .write c.gateHost b])

/-- The bytes handed to `conn.Write` by the calls of a trace, in order. -/
def written : List NetEvent → List Nat
  | [] => []
  | .dial _ _ :: rest => written rest
  | .write _ b :: rest => b ++ written rest

/-! ## `initPrimary`: registration and the error branch of the receive loop -/

/-- The message `spec.ConnectRequest`, the request of the `Connect` call. -/
structure ConnectRequest where
  Token : GoString
  ServiceName : GoString
  Private : Bool
  CustomDomain : GoString
  deriving DecidableEq, Repr

/-- An error returned by `stream.Recv()`: the text `err.Error()` and what
`status.FromError(err)` reports, `some (code, message)` when it reports `ok`
(the error carries a gRPC status) and `none` when it does not. -/
structure RecvError where
  text : GoString
  status : Option (Nat × GoString)
  deriving DecidableEq, Repr

/-- The function `strings.Contains(s, substr)`. -/
def Contains : GoString → GoString → Bool
  | [], substr => substr.isEmpty
  | a :: s, substr => substr.isPrefixOf (a :: s) || Contains s substr

/-- The constant `time.Second`, in nanoseconds. -/
def Second : Int := 1000000000

/-- What the receive goroutine does to the outside world:
`fatal msg` is `log.Fatal(msg)` (the message is logged and the process
exits), `failover` a call of `c.busyGate()`, `sleep d` the firing of
`time.After(d)`, `print line` a `fmt.Println`, `dial host` the call
`grpc.Dial(host, ...)`, `connect host req` the call
`gateClient.Connect(c.ctx, req)` on the connection to `host`, and
`recvLoop host` the start of a receive goroutine on the new stream. -/
inductive Event where
  | fatal (msg : GoString)
  | failover
  | sleep (d : Int)
  | print (line : GoString)
  | dial (host : GoString)
  | connect (host : GoString) (req : ConnectRequest)
  | recvLoop (host : GoString)
  deriving DecidableEq, Repr

/-- What the network answers to one call of `initPrimary`. -/
inductive InitOutcome where
  | dialError (err : GoError)
  | connectError (err : GoError)
  | ok
  deriving DecidableEq, Repr

/-- The method `Client.initPrimary`: the returned error (`none` for `nil`) and the events
of the call. -/
def initPrimary (c : Client) (o : InitOutcome) : Option GoError × List Event :=
  let req : ConnectRequest :=
    { Token := c.token, ServiceName := c.serviceName, Private := c.«private»,
      CustomDomain := c.customDomain }
  match o with
  | .dialError err => (some err, [.dial c.initHost])
  | .connectError err => (some err, [.dial c.initHost, .connect c.initHost req])
  | .ok => (none, [.dial c.initHost, .connect c.initHost req, .recvLoop c.initHost])

/-- The loop `reconnectLoop:` of the receive goroutine, run against the
outcomes of the successive `initPrimary` calls: the events, and whether the
loop was left (`false`: every outcome given was used up and the loop is
waiting for the next second to pass). -/
def reconnectLoop (c : Client) : List InitOutcome → List Event × Bool
  | [] => ([], false)
  | o :: rest =>
    let r := initPrimary c o
    match r.1 with
    | none =>
      (.sleep Second :: .print (utf8 "reconnect") :: r.2 ++
        [.print (utf8 "reconnect error <nil>")], true)
    | some _ =>
      let l := reconnectLoop c rest
      (.sleep Second :: .print (utf8 "reconnect") :: r.2 ++ l.1, l.2)

/-- How the receive goroutine stands after an error from `stream.Recv()`:
`fatal` when `log.Fatal` ended the process, `returned` when the goroutine
returned, `reconnecting` when it is in the reconnect loop. -/
inductive Exit where
  | fatal
  | returned
  | reconnecting
  deriving DecidableEq, Repr

/-- The branch `if err != nil` of the receive goroutine of `initPrimary`:
the client afterwards, the events in order and how the goroutine stands.
`done` tells whether `c.ctx.Done()` is closed when the `select` runs;
`attempts` are the outcomes of the `initPrimary` calls of the reconnect
loop. -/
def onRecvError (c : Client) (err : RecvError) (done : Bool) (attempts : List InitOutcome) :
    Client × List Event × Exit :=
  match err.status with
  | some respStatus => (c, [.fatal respStatus.2], .fatal)
  | none =>
    if done then (c, [], .returned)
    else if Contains err.text (utf8 "service exist") then
      match busyGate c with
      | (some e, c1) => (c1, [.failover, .fatal e.text], .fatal)
      | (none, c1) =>
        let l := reconnectLoop c1 attempts
        (c1, .failover :: l.1, if l.2 then .returned else .reconnecting)
    else
      let l := reconnectLoop c attempts
      (c, l.1, if l.2 then .returned else .reconnecting)

/-! ## The receive loop of `initPrimary`: commands -/

/-- Modelled from the spec: the enum `spec.Type` of the command kinds.  The
generated file under `spec/` declares `Type_OPEN` only, while `client.go`
also names `spec.Type_SET_INFO`; the spec gives the two kinds `OPEN` and
`SET_INFO`.  `other` stands for any further value of the `int32`. -/
inductive CommandKind where
  | OPEN
  | SET_INFO
  | other (n : Int)
  deriving DecidableEq, Repr

/-- Modelled from the spec: the message `spec.Command` with the field
`ProjectUri` that `client.go` reads and the generated file under `spec/` does
not declare (`project_uri`, set on `SET_INFO`). -/
structure Command where
  Kind : CommandKind
  ProjectUri : GoString
  deriving DecidableEq, Repr

/-- What one call of `stream.Recv()` returns, with what the environment
answers while the loop handles it: for a command, the outcome of the network
calls of `getConnection`; for an error, the arguments of `onRecvError`. -/
inductive RecvResult where
  | command (resp : Command) (net : NetOutcome)
  | error (err : RecvError) (done : Bool) (attempts : List InitOutcome)
  deriving DecidableEq, Repr

/-- What the receive loop does to the outside world: a network call of
`getConnection`, a `fmt.Println` of a line, a `fmt.Printf` of a text, the
send `c.accepter <- secondConn` of the connection made for the command at
position `k` of the stream, or an event of the error branch. -/
inductive LoopEvent where
  | net (e : NetEvent)
  | print (line : GoString)
  | printf (text : GoString)
  | send (k : Nat) (conn : Conn)
  | onError (e : Event)
  deriving DecidableEq, Repr

/-- How the receive goroutine stands: `receiving` when it waits in
`stream.Recv()` (every result given was handled), `returned` when it
returned after `getConnection` failed, `afterError` when the error branch
ran. -/
inductive LoopExit where
  | receiving
  | returned
  | afterError (exit : Exit)
  deriving DecidableEq, Repr

/-- The loop `for { resp, err := stream.Recv() ... }` of the goroutine that
`initPrimary` starts, run on the results of the successive `Recv` calls; `k`
is the position in the stream of the first result.  The send on the
unbuffered channel `c.accepter` blocks until an `Accept` call receives the
connection, so what follows a send happens once that connection is taken. -/
def recvLoop (c : Client) : List RecvResult → Nat → Client × List LoopEvent × LoopExit
  | [], _ => (c, [], .receiving)
  | .error err done attempts :: _, _ =>
    let r := onRecvError c err done attempts
    (r.1, r.2.1.map .onError, .afterError r.2.2)
  | .command resp net :: rest, k =>
    match resp.Kind with
    | .OPEN =>
      let r := getConnection c c.serviceName c.token net
      match r.1 with
      | .error _ =>
        (c, r.2.map .net ++ [.print (utf8 "cannot get connection")], .returned)
      | .ok secondConn =>
        let l := recvLoop c rest (k + 1)
        (l.1, r.2.map .net ++ .send k secondConn :: l.2.1, l.2.2)
    | .SET_INFO =>
      let c1 : Client := { c with uri := resp.ProjectUri }
      let l := recvLoop c1 rest (k + 1)
      (l.1, .printf (utf8 "Service URL: https://" ++ resp.ProjectUri ++ utf8 "\r\n") :: l.2.1,
        l.2.2)
    | .other _ => recvLoop c rest (k + 1)

/-- The connections sent on `c.accepter` by the events of a trace, in
order, each with the position of the command it was made for. -/
def sends : List LoopEvent → List (Nat × Conn)
  | [] => []
  | .send k conn :: rest => (k, conn) :: sends rest
  | _ :: rest => sends rest

/-! ## `Accept` -/

/-- What happens while an `Accept` call waits, in order: the context of the
client is cancelled, or the receive loop sends a connection on
`c.accepter`. -/
inductive ChanEvent where
  | cancel
  | send (k : Nat) (conn : Conn)
  deriving DecidableEq, Repr

/-- The receive `<-c.accepter`: it waits for the next send, whatever happens
to the context meanwhile.  The result is the connection received, whether
the context was cancelled during the wait, and the events after the send;
`none` when no send comes. -/
def recvAccepter : List ChanEvent → Option ((Nat × Conn) × Bool × List ChanEvent)
  | [] => none
  | .cancel :: rest =>
    match recvAccepter rest with
    | none => none
    | some (kc, _, rest1) => some (kc, true, rest1)
  | .send k conn :: rest => some ((k, conn), false, rest)

/-- The method `Client.Accept`.  `done` tells whether `c.ctx.Done()` is closed
when the `select` runs, `later` what happens from then on.  The result is
`none` while the call is blocked; otherwise the pair `(net.Conn, error)`
returned, whether the context is cancelled at the return, and the events
not yet consumed. -/
def Accept (done : Bool) (later : List ChanEvent) :
    Option ((Option (Nat × Conn) × Option GoError) × Bool × List ChanEvent) :=
  if done then some ((none, some ⟨utf8 "context deadline"⟩), true, later)
  else
    match recvAccepter later with
    | none => none
    | some (kc, cancelled, rest) => some ((some kc, none), cancelled, rest)

/-- The pairs returned by `n` calls of `Accept` made one after the other, as
far as they return. -/
def Accepts : Nat → Bool → List ChanEvent → List (Option (Nat × Conn) × Option GoError)
  | 0, _, _ => []
  | n + 1, done, later =>
    match Accept done later with
    | none => []
    | some (r, done1, rest) => r :: Accepts n done1 rest

/-! ## `getTopology` and `InitClient` -/

/-- The outcome of `http.Get`: an error, or a response with its status code
and body. -/
inductive HttpExchange where
  | transportError (err : GoError)
  | response (statusCode : Nat) (body : List Nat)
  deriving DecidableEq, Repr

/-- The method `Client.getTopology`.  `get` answers `http.Get` for an
address; `decode` is `json.NewDecoder(res.Body).Decode(&cfg)` of the Go
standard library, as a function of the body. -/
def getTopology (decode : List Nat → Except GoError TopologyConfig) (c : Client)
    (get : GoString → HttpExchange) : Except GoError TopologyConfig :=
  match get c.topologyAddress with
  | .transportError err => .error err
  | .response _ body => decode body

/-- A `ClientOption`, by the function of `client.go` that builds it. -/
inductive ClientOption where
  | WithTopologyAddress (address : GoString)
  | WithGateHost (host : GoString)
  | WithInitHost (host : GoString)
  | WithPrivate
  | WithCustomDomain (domain : GoString)
  deriving DecidableEq, Repr

/-- The call `option(&c)`. -/
def ClientOption.apply : ClientOption → Client → Client
  | .WithTopologyAddress address, c => { c with topologyAddress := address }
  | .WithGateHost host, c => { c with gateHost := host }
  | .WithInitHost host, c => { c with initHost := host }
  | .WithPrivate, c => { c with «private» := true }
  | .WithCustomDomain domain, c => { c with customDomain := domain }

/-- The client of `InitClient` once the options have run: the struct literal
with the default topology address, then `option(&c)` for every option in
order.  The field `region` is still `nil`, written as the empty region; it
is not read before `InitClient` assigns it. -/
def newClient (serviceName token : GoString) (options : List ClientOption) : Client :=
  options.foldl (fun c option => option.apply c)
    { gateHost := [], initHost := [], token := token, «private» := false,
      serviceName := serviceName, customDomain := [],
      topologyAddress := utf8 "http://topology.pinge.dev:5004",
      region := { Id := [], PingHost := [], Gates := [] }, uri := [] }

/-- What `InitClient` gives: the returned error, a run-time panic (index out
of range at `region.Gates[0]`), or the returned client. -/
inductive InitResult where
  | error (err : GoError)
  | panic
  | ok (c : Client)
  deriving DecidableEq, Repr

/-- The function `InitClient`: the result and the events of its call of
`c.initPrimary()`, whose error it drops.  `get` answers `http.Get`, `probe`
the probes of `selectRegion`, `init` the call of `initPrimary`.  The region
returned by `selectRegion` is `&topology.Regions[i]` for an index of the
list (`selectRegion_index`), so the lookup of that element never fails. -/
def InitClient (decode : List Nat → Except GoError TopologyConfig)
    (serviceName token : GoString) (options : List ClientOption)
    (get : GoString → HttpExchange) (probe : Nat → Probe) (init : InitOutcome) :
    InitResult × List Event :=
  let c := newClient serviceName token options
  match getTopology decode c get with
  | .error err => (.error ⟨utf8 "cannot get topology: " ++ err.text⟩, [])
  | .ok topology =>
    match selectRegion topology probe with
    | .error err => (.error err, [])
    | .ok i =>
      match topology.Regions[i]? with
      | none => (.panic, [])
      | some region =>
        let c : Client := { c with region := region }
        match region.Gates with
        | [] => (.panic, [])
        | gate0 :: _ =>
          let c : Client :=
            { c with gateHost := gate0.SecondaryAddress, initHost := gate0.PrimaryAddress }
          (.ok c, (initPrimary c init).2)

/-- The two addresses of a gate: control (primary) and data (secondary). -/
def addresses (g : TopologyGate) : GoString × GoString :=
  (g.PrimaryAddress, g.SecondaryAddress)

/-! ## Concrete inputs -/

/-- A client with the given gate list and current addresses; the other fields
are empty. -/
def clientOf (gates : List TopologyGate) (initHost gateHost : GoString) : Client :=
  { gateHost := gateHost, initHost := initHost, token := [], «private» := false,
    serviceName := [], customDomain := [], topologyAddress := [],
    region := { Id := utf8 "eu", PingHost := utf8 "eu:9", Gates := gates }, uri := [] }

/-- A gate with control address `p` and data address `s`. -/
def gateOf (p s : String) (busy : Bool) : TopologyGate :=
  { SecondaryAddress := utf8 s, PrimaryAddress := utf8 p, Busy := busy }

/-- Three regions; the probes of the last two return in the same time. -/
def threeRegions : TopologyConfig :=
  { Regions := [⟨utf8 "eu", utf8 "eu:9", []⟩, ⟨utf8 "us", utf8 "us:9", []⟩,
      ⟨utf8 "as", utf8 "as:9", []⟩] }

/-- Probe outcomes for `threeRegions`: 50 ms, 20 ms, 20 ms, then failures. -/
def threeProbes : Nat → Probe
  | 0 => .ok 50000000
  | 1 => .ok 20000000
  | 2 => .ok 20000000
  | _ => .dialError

/-- Three free gates, the client on the first. -/
def threeFree : Client :=
  clientOf [gateOf "g1:1" "g1:2" false, gateOf "g2:1" "g2:2" false, gateOf "g3:1" "g3:2" false]
    (utf8 "g1:1") (utf8 "g1:2")

/-- Three gates, the second already busy, the client on the first. -/
def secondBusy : Client :=
  clientOf [gateOf "g1:1" "g1:2" false, gateOf "g2:1" "g2:2" true, gateOf "g3:1" "g3:2" false]
    (utf8 "g1:1") (utf8 "g1:2")

/-- Two list entries with the same primary address, the client on the first. -/
def sharedPrimary : Client :=
  clientOf [gateOf "g:1" "g:2" false, gateOf "g:1" "g:3" false] (utf8 "g:1") (utf8 "g:2")

/-- Two gates, both busy, the client on the first. -/
def allBusy : Client :=
  clientOf [gateOf "g1:1" "g1:2" true, gateOf "g2:1" "g2:2" true] (utf8 "g1:1") (utf8 "g1:2")

/-- The error a cancelled stream returns: gRPC status `Canceled` (code 1). -/
def canceledError : RecvError :=
  { text := utf8 "rpc error: code = Canceled desc = context canceled",
    status := some (1, utf8 "context canceled") }

/-- A dropped transport: gRPC status `Unavailable` (code 14). -/
def unavailableError : RecvError :=
  { text := utf8 "rpc error: code = Unavailable desc = transport is closing",
    status := some (14, utf8 "transport is closing") }

/-- The gate rejects the registration with a gRPC status (code 6,
`AlreadyExists`) whose message is `service exist`. -/
def serviceExistStatus : RecvError :=
  { text := utf8 "rpc error: code = AlreadyExists desc = service exist",
    status := some (6, utf8 "service exist") }

/-- The error `io.EOF`, which carries no gRPC status. -/
def eofError : RecvError := { text := utf8 "EOF", status := none }

/-- A topology document with one region of two gates. -/
def sampleBody : List Nat :=
  utf8 "\x7b\"Regions\":[\x7b\"id\":\"eu\",\"ping_host\":\"eu:9\",\"gates\":[\x7b\"primary_address\":\"g1:1\",\"secondary_address\":\"g1:2\"\x7d,\x7b\"primary_address\":\"g2:1\",\"secondary_address\":\"g2:2\"\x7d]\x7d]\x7d"

/-- The topology that the document `sampleBody` describes. -/
def sampleTopology : TopologyConfig :=
  { Regions := [{ Id := utf8 "eu", PingHost := utf8 "eu:9",
                  Gates := [gateOf "g1:1" "g1:2" false, gateOf "g2:1" "g2:2" false] }] }

/-- A decoder for the examples: it decodes the document `sampleBody` to
`sampleTopology` and rejects every other body. -/
def sampleDecode (body : List Nat) : Except GoError TopologyConfig :=
  if body = sampleBody then .ok sampleTopology else .error ⟨utf8 "invalid character"⟩

/-- A topology server that answers every address with status 200 and
`sampleBody`. -/
def sampleGet (_ : GoString) : HttpExchange := .response 200 sampleBody

/-- A topology server that answers every address with status 500 and
`sampleBody`. -/
def serverErrorGet (_ : GoString) : HttpExchange := .response 500 sampleBody

/-- A probe that answers in 30 ms for every region. -/
def steadyProbe (_ : Nat) : Probe := .ok 30000000

/-- An `OPEN` command. -/
def openCommand : Command := { Kind := .OPEN, ProjectUri := [] }

/-- A `SET_INFO` command. -/
def setInfoCommand : Command := { Kind := .SET_INFO, ProjectUri := utf8 "svc.pinge.link" }

/-- The network accepts the dial and the write. -/
def netOk : NetOutcome := { dialErr := none, writeErr := none }

/-- The network refuses the dial. -/
def dialRefused : NetOutcome :=
  { dialErr := some ⟨utf8 "connection refused"⟩, writeErr := none }

/-- The network accepts the dial and fails the write. -/
def writeBroken : NetOutcome := { dialErr := none, writeErr := some ⟨utf8 "broken pipe"⟩ }

/-- The client `InitClient` builds for service `svc` and token `T` without
options from the sample topology. -/
def sampleClient : Client :=
  { newClient (utf8 "svc") (utf8 "T") [] with
    region := ⟨utf8 "eu", utf8 "eu:9", [gateOf "g1:1" "g1:2" false, gateOf "g2:1" "g2:2" false]⟩,
    gateHost := (gateOf "g1:1" "g1:2" false).SecondaryAddress,
    initHost := (gateOf "g1:1" "g1:2" false).PrimaryAddress }
/-! ## Lemmas on `selectRegion` -/

theorem selectRegionLoop_inv (probe : Nat → Probe) (lo : Nat) :
    ∀ (rs : List TopologyRegion) (i : Nat) (best : Option (Nat × Int)),
      lo ≤ i → BestSoFar probe lo i best →
      BestSoFar probe lo (i + rs.length) (selectRegionLoop probe rs i best) := by
  intro rs
  induction rs with
  | nil => intro i best _ h; simpa [selectRegionLoop] using h
  | cons r rest ih =>
    intro i best hi h
    have hlen : i + (r :: rest).length = (i + 1) + rest.length := by
      simp only [List.length_cons]; omega
    rw [hlen]
    unfold selectRegionLoop
    have hskip : (∀ t, probe i ≠ .ok t) → BestSoFar probe lo (i + 1) best := by
      intro hne
      cases best with
      | none =>
        intro j hj hj' t
        rcases Nat.lt_succ_iff_lt_or_eq.mp hj' with h1 | h1
        · exact h j hj h1 t
        · subst h1; exact hne t
      | some p =>
        obtain ⟨b, bt⟩ := p
        obtain ⟨h0, h1, h2, h3, h4⟩ := h
        refine ⟨h0, by omega, h2, ?_, h4⟩
        intro j hj hj' t ht
        rcases Nat.lt_succ_iff_lt_or_eq.mp hj' with h5 | h5
        · exact h3 j hj h5 t ht
        · subst h5; exact absurd ht (hne t)
    cases hp : probe i with
    | dialError =>
      exact ih (i + 1) best (by omega) (hskip (by intro t; rw [hp]; simp))
    | pingError =>
      exact ih (i + 1) best (by omega) (hskip (by intro t; rw [hp]; simp))
    | ok execTime =>
      cases best with
      | none =>
        apply ih (i + 1) _ (by omega)
        refine ⟨hi, by omega, hp, ?_, ?_⟩
        · intro j hj hj' t ht
          rcases Nat.lt_succ_iff_lt_or_eq.mp hj' with h5 | h5
          · exact absurd ht (h j hj h5 t)
          · subst h5; rw [hp] at ht; cases ht; exact le_refl _
        · intro j hj hj' t ht
          exact absurd ht (h j hj hj' t)
      | some p =>
        obtain ⟨b, bt⟩ := p
        obtain ⟨h0, h1, h2, h3, h4⟩ := h
        by_cases hlt : execTime < bt
        · simp only [hlt, if_true]
          apply ih (i + 1) _ (by omega)
          refine ⟨hi, by omega, hp, ?_, ?_⟩
          · intro j hj hj' t ht
            rcases Nat.lt_succ_iff_lt_or_eq.mp hj' with h5 | h5
            · exact le_trans (le_of_lt hlt) (h3 j hj h5 t ht)
            · subst h5; rw [hp] at ht; cases ht; exact le_refl _
          · intro j hj hj' t ht
            exact lt_of_lt_of_le hlt (h3 j hj hj' t ht)
        · simp only [hlt, if_false]
          apply ih (i + 1) _ (by omega)
          refine ⟨h0, by omega, h2, ?_, h4⟩
          intro j hj hj' t ht
          rcases Nat.lt_succ_iff_lt_or_eq.mp hj' with h5 | h5
          · exact h3 j hj h5 t ht
          · subst h5; rw [hp] at ht; cases ht; exact not_lt.mp hlt

theorem selectRegionLoop_spec (probe : Nat → Probe) (rs : List TopologyRegion) :
    BestSoFar probe 0 rs.length (selectRegionLoop probe rs 0 none) := by
  have h := selectRegionLoop_inv probe 0 rs 0 none (le_refl 0)
    (by intro j _ hj; exact absurd hj (Nat.not_lt_zero j))
  simpa using h

/-! ## Lemmas on `busyGate` -/

theorem busyGateLoop_fst (initHost : GoString) :
    ∀ (gs : List TopologyGate) (i : Nat) (ng : Option Nat),
      (busyGateLoop initHost gs i ng).1 = gs.map (markBusy initHost) := by
  intro gs
  induction gs with
  | nil => intro i ng; rfl
  | cons g rest ih =>
    intro i ng
    unfold busyGateLoop
    by_cases h1 : g.PrimaryAddress = initHost
    · simp [h1, markBusy, ih]
    · by_cases h2 : g.Busy = true
      · simp [h1, h2, markBusy, ih]
      · simp [h1, h2, markBusy, ih]

/-- The loop ends with `newGate` on the last candidate of the list, or on its
initial value when the list has no candidate. -/
theorem busyGateLoop_snd (initHost : GoString) :
    ∀ (gs : List TopologyGate) (i : Nat) (ng : Option Nat),
      ((busyGateLoop initHost gs i ng).2 = ng ∧ ∀ g ∈ gs, candidate initHost g = false) ∨
      (∃ k g, (busyGateLoop initHost gs i ng).2 = some (i + k) ∧ gs[k]? = some g ∧
        candidate initHost g = true ∧
        ∀ k1 g1, k < k1 → gs[k1]? = some g1 → candidate initHost g1 = false) := by
  intro gs
  induction gs with
  | nil => intro i ng; left; exact ⟨rfl, by simp⟩
  | cons g rest ih =>
    intro i ng
    have skip : candidate initHost g = false →
        ∀ r : List TopologyGate × Option Nat, r = busyGateLoop initHost rest (i + 1) ng →
        ((r.2 = ng ∧ ∀ x ∈ g :: rest, candidate initHost x = false) ∨
        (∃ k x, r.2 = some (i + k) ∧ (g :: rest)[k]? = some x ∧
          candidate initHost x = true ∧
          ∀ k1 g1, k < k1 → (g :: rest)[k1]? = some g1 → candidate initHost g1 = false)) := by
      intro hc r hr
      subst hr
      rcases ih (i + 1) ng with ⟨h1, h2⟩ | ⟨k, x, h1, h2, h3, h4⟩
      · left
        refine ⟨h1, ?_⟩
        intro y hy
        rcases List.mem_cons.mp hy with rfl | hy
        · exact hc
        · exact h2 y hy
      · right
        refine ⟨k + 1, x, by rw [h1]; congr 1; omega, by simpa using h2, h3, ?_⟩
        intro k1 g1 hk hg
        cases k1 with
        | zero => omega
        | succ k1 =>
          rw [List.getElem?_cons_succ] at hg
          exact h4 k1 g1 (by omega) hg
    unfold busyGateLoop
    by_cases h1 : g.PrimaryAddress = initHost
    · simp only [h1, if_true]
      exact skip (by simp [candidate, h1]) _ rfl
    · by_cases h2 : g.Busy = true
      · simp only [h1, h2, if_false, Bool.not_true, Bool.false_eq_true]
        exact skip (by simp [candidate, h2]) _ rfl
      · simp only [h1, h2, if_false, Bool.not_false, if_true, Bool.not_eq_true] 
        have hc : candidate initHost g = true := by
          simp [candidate, h1, h2]
        right
        rcases ih (i + 1) (some i) with ⟨h3, h4⟩ | ⟨k, x, h3, h4, h5, h6⟩
        · refine ⟨0, g, by simpa using h3, by simp, hc, ?_⟩
          intro k1 g1 hk hg
          cases k1 with
          | zero => omega
          | succ k1 =>
            rw [List.getElem?_cons_succ] at hg
            exact h4 g1 (List.getElem?_mem hg)
        · refine ⟨k + 1, x, by rw [h3]; congr 1; omega, by simpa using h4, h5, ?_⟩
          intro k1 g1 hk hg
          cases k1 with
          | zero => omega
          | succ k1 =>
            rw [List.getElem?_cons_succ] at hg
            exact h6 k1 g1 (by omega) hg

theorem newGate_spec (c : Client) :
    (newGate c = none ∧ ∀ g ∈ c.region.Gates, candidate c.initHost g = false) ∨
    (∃ k g, newGate c = some k ∧ c.region.Gates[k]? = some g ∧
      candidate c.initHost g = true ∧
      ∀ k1 g1, k < k1 → c.region.Gates[k1]? = some g1 → candidate c.initHost g1 = false) := by
  have h := busyGateLoop_snd c.initHost c.region.Gates 0 none
  simpa [newGate] using h

theorem markBusy_of_candidate (initHost : GoString) (g : TopologyGate)
    (h : candidate initHost g = true) : markBusy initHost g = g := by
  have h1 : g.PrimaryAddress ≠ initHost := by
    intro h2; simp [candidate, h2] at h
  simp [markBusy, h1]

theorem candidate_iff (initHost : GoString) (g : TopologyGate) :
    candidate initHost g = true ↔ g.PrimaryAddress ≠ initHost ∧ g.Busy = false := by
  simp [candidate]

theorem markBusy_busy (initHost : GoString) (g : TopologyGate) (h : g.Busy = true) :
    (markBusy initHost g).Busy = true := by
  unfold markBusy; split <;> simp [h]

theorem busyGate_gates (c : Client) :
    (busyGate c).2.region.Gates = c.region.Gates.map (markBusy c.initHost) := by
  unfold busyGate
  simp only [busyGateLoop_fst]
  split
  · rfl
  · split <;> rfl

theorem busyGate_of_none (c : Client) (h : newGate c = none) :
    busyGate c = (some ErrorAllGatesBusy,
      { c with region := { c.region with Gates := c.region.Gates.map (markBusy c.initHost) } }) := by
  unfold newGate at h
  unfold busyGate
  simp only [busyGateLoop_fst, h]

theorem busyGate_of_some (c : Client) (k : Nat) (g : TopologyGate) (h : newGate c = some k)
    (hg : c.region.Gates[k]? = some g) (hc : candidate c.initHost g = true) :
    busyGate c = (none,
      { c with
        region := { c.region with Gates := c.region.Gates.map (markBusy c.initHost) },
        gateHost := g.SecondaryAddress, initHost := g.PrimaryAddress }) := by
  unfold newGate at h
  unfold busyGate
  simp only [busyGateLoop_fst, h, List.getElem?_map, hg, Option.map_some',
    markBusy_of_candidate _ _ hc]

theorem failovers_succ (n : Nat) (c : Client) :
    failovers (n + 1) c = (busyGate (failovers n c)).2 := by
  induction n generalizing c with
  | zero => rfl
  | succ n ih =>
    show failovers (n + 1) (busyGate c).2 = _
    rw [ih]
    rfl

theorem failovers_busy (c : Client) (j : Nat) (g : TopologyGate)
    (hg : c.region.Gates[j]? = some g) (hb : g.Busy = true) (n : Nat) :
    ∃ g1, (failovers n c).region.Gates[j]? = some g1 ∧ g1.Busy = true := by
  induction n with
  | zero => exact ⟨g, hg, hb⟩
  | succ n ih =>
    obtain ⟨g1, h1, h2⟩ := ih
    rw [failovers_succ, busyGate_gates]
    exact ⟨markBusy (failovers n c).initHost g1, by simp [List.getElem?_map, h1],
      markBusy_busy _ _ h2⟩

theorem newGate_not_busy (c : Client) (j : Nat) (g : TopologyGate)
    (hg : c.region.Gates[j]? = some g) (hb : g.Busy = true) : newGate c ≠ some j := by
  intro h
  rcases newGate_spec c with ⟨h1, _⟩ | ⟨k, x, h1, h2, h3, _⟩
  · rw [h1] at h; cases h
  · rw [h1] at h
    cases h
    rw [hg] at h2
    cases h2
    simp [candidate, hb] at h3

/-! ## Lemmas on the JSON encoding -/

theorem first_cases (b : Nat) :
    first b = 0xF0 ∨ first b = 0xF1 ∨ first b = 0x02 ∨ first b = 0x13 ∨ first b = 0x03 ∨
    first b = 0x23 ∨ first b = 0x34 ∨ first b = 0x04 ∨ first b = 0x44 := by
  unfold first
  split_ifs <;> simp

/-- For a first byte that starts a multi-byte encoding, the width is 2, 3 or
4 and the second byte must be a continuation byte. -/
theorem first_multibyte (b : Nat) (h : ¬ first b ≥ 0xF0) :
    2 ≤ first b &&& 7 ∧ first b &&& 7 ≤ 4 ∧ 0x80 ≤ (acceptRanges (first b >>> 4)).1 := by
  rcases first_cases b with h1 | h1 | h1 | h1 | h1 | h1 | h1 | h1 | h1 <;>
    rw [h1] at h ⊢ <;> first | exact absurd (by decide) h | decide

/-- The bytes after the first of a rune that `DecodeRuneInString` accepts are
inside the string and are not ASCII bytes. -/
theorem DecodeRuneInString_tail (s : List Nat) :
    (DecodeRuneInString s).2 ≤ 1 ∨
    ((DecodeRuneInString s).2 ≤ s.length ∧
      ∀ k, 1 ≤ k → k < (DecodeRuneInString s).2 → 0x80 ≤ s.getD k 0) := by
  unfold DecodeRuneInString
  by_cases h0 : s.length < 1
  · left; simp only [h0, if_true]; decide
  simp only [h0, if_false]
  by_cases hx : first (s.getD 0 0) ≥ 0xF0
  · left; simp only [hx, if_true]; exact le_refl 1
  simp only [hx, if_false]
  obtain ⟨hsz2, hsz4, hlo⟩ := first_multibyte (s.getD 0 0) hx
  generalize first (s.getD 0 0) &&& 7 = sz at hsz2 hsz4 ⊢
  generalize acceptRanges (first (s.getD 0 0) >>> 4) = accept at hlo ⊢
  by_cases h1 : s.length < sz
  · left; simp only [h1, if_true]; exact le_refl 1
  simp only [h1, if_false]
  by_cases h2 : s.getD 1 0 < accept.1 ∨ accept.2 < s.getD 1 0
  · left; simp only [h2, if_true]; exact le_refl 1
  simp only [h2, if_false]
  have hs1 : 0x80 ≤ s.getD 1 0 := by
    have : ¬ s.getD 1 0 < accept.1 := fun h => h2 (Or.inl h)
    omega
  by_cases h3 : sz ≤ 2
  · right
    simp only [h3, if_true]
    refine ⟨by omega, ?_⟩
    intro k hk1 hk2
    have : k = 1 := by omega
    subst this; exact hs1
  simp only [h3, if_false]
  by_cases h4 : s.getD 2 0 < 0x80 ∨ 0xBF < s.getD 2 0
  · left; simp only [h4, if_true]; exact le_refl 1
  simp only [h4, if_false]
  have hs2 : 0x80 ≤ s.getD 2 0 := by
    have : ¬ s.getD 2 0 < 0x80 := fun h => h4 (Or.inl h)
    omega
  by_cases h5 : sz ≤ 3
  · right
    simp only [h5, if_true]
    refine ⟨by omega, ?_⟩
    intro k hk1 hk2
    have : k = 1 ∨ k = 2 := by omega
    rcases this with rfl | rfl
    · exact hs1
    · exact hs2
  simp only [h5, if_false]
  by_cases h6 : s.getD 3 0 < 0x80 ∨ 0xBF < s.getD 3 0
  · left; simp only [h6, if_true]; exact le_refl 1
  simp only [h6, if_false]
  have hs3 : 0x80 ≤ s.getD 3 0 := by
    have : ¬ s.getD 3 0 < 0x80 := fun h => h6 (Or.inl h)
    omega
  right
  refine ⟨by omega, ?_⟩
  intro k hk1 hk2
  have : k = 1 ∨ k = 2 ∨ k = 3 := by omega
  rcases this with rfl | rfl | rfl
  · exact hs1
  · exact hs2
  · exact hs3

theorem DecodeRuneInString_width_pos (s : List Nat) (h : s ≠ []) :
    1 ≤ (DecodeRuneInString s).2 := by
  have hlen : ¬ s.length < 1 := by
    cases s with
    | nil => exact absurd rfl h
    | cons a t => simp
  unfold DecodeRuneInString
  simp only [hlen, if_false]
  split_ifs <;> exact Nat.le_add_left 1 _

theorem mem_take_of_getD (p : Nat → Prop) :
    ∀ (s : List Nat) (n : Nat), (∀ k, k < n → k < s.length → p (s.getD k 0)) →
      ∀ x ∈ s.take n, p x := by
  intro s
  induction s with
  | nil => intro n _ x hx; simp at hx
  | cons a t ih =>
    intro n h x hx
    cases n with
    | zero => simp at hx
    | succ n =>
      rw [List.take_succ_cons] at hx
      rcases List.mem_cons.mp hx with rfl | hx
      · exact h 0 (by omega) (by simp)
      · apply ih n _ x hx
        intro k hk hk2
        have := h (k + 1) (by omega) (by simp; omega)
        simpa using this

/-- The bytes of a rune that `DecodeRuneInString` accepts with a first byte
outside ASCII are all outside ASCII. -/
theorem DecodeRuneInString_bytes (b : Nat) (rest : List Nat) (hb : ¬ b < 0x80) :
    ∀ x ∈ (b :: rest).take (DecodeRuneInString ((b :: rest).take 4)).2, 0x80 ≤ x := by
  apply mem_take_of_getD (fun x => 0x80 ≤ x)
  intro k hk hlen
  cases k with
  | zero => simp only [List.getD_cons_zero]; omega
  | succ k =>
    rcases DecodeRuneInString_tail ((b :: rest).take 4) with h | ⟨h1, h2⟩
    · omega
    · have h3 := h2 (k + 1) (by omega) hk
      have h4 : k + 1 < ((b :: rest).take 4).length := by omega
      have h5 : k + 1 < 4 := by
        have := List.length_take_le 4 (b :: rest)
        omega
      have h6 : ((b :: rest).take 4).getD (k + 1) 0 = (b :: rest).getD (k + 1) 0 := by
        simp only [List.getD_eq_getElem?_getD, List.getElem?_take, h5, if_true]
      rw [h6] at h3
      exact h3

theorem hex_ge (n : Nat) : 0x20 ≤ hex n := by
  unfold hex; split <;> omega

theorem escapeByte_printable (b : Nat) (hb : b < 0x80) (hs : htmlSafeSet b = false) :
    ∀ x ∈ escapeByte b, 0x20 ≤ x := by
  have h1 := hex_ge (b >>> 4)
  have h2 := hex_ge (b &&& 0xF)
  intro x hx
  unfold escapeByte at hx
  split_ifs at hx with c1 c2 c3 c4 c5 c6
  · rcases c1 with rfl | rfl <;> simp at hx <;> omega
  all_goals simp at hx; omega

/-- No byte below `0x20` (in particular no line feed) is written by the
string encoder. -/
theorem appendStringLoop_printable :
    ∀ (fuel : Nat) (src : List Nat), ∀ x ∈ appendStringLoop fuel src, 0x20 ≤ x := by
  intro fuel
  induction fuel with
  | zero => intro src x hx; simp [appendStringLoop] at hx
  | succ fuel ih =>
    intro src x hx
    cases src with
    | nil => simp [appendStringLoop] at hx
    | cons b rest =>
      unfold appendStringLoop at hx
      by_cases hb : b < 0x80
      · simp only [hb, if_true] at hx
        by_cases hs : htmlSafeSet b = true
        · simp only [hs, if_true] at hx
          rcases List.mem_cons.mp hx with rfl | hx
          · simp [htmlSafeSet] at hs; omega
          · exact ih rest x hx
        · simp only [hs, if_false] at hx
          rcases List.mem_append.mp hx with hx | hx
          · exact escapeByte_printable b hb (by simpa using hs) x hx
          · exact ih rest x hx
      · simp only [hb, if_false] at hx
        split_ifs at hx with c1 c2
        · rcases List.mem_append.mp hx with hx | hx
          · exact (by decide : ∀ y ∈ utf8 "\\ufffd", 0x20 ≤ y) x hx
          · exact ih rest x hx
        · rcases List.mem_append.mp hx with hx | hx
          · exact (by decide : ∀ y ∈ utf8 "\\u202", 0x20 ≤ y) x hx
          · rcases List.mem_cons.mp hx with rfl | hx
            · exact hex_ge _
            · exact ih _ x hx
        · rcases List.mem_append.mp hx with hx | hx
          · have := DecodeRuneInString_bytes b rest hb x hx
            omega
          · exact ih _ x hx

theorem appendString_printable (src : GoString) : ∀ x ∈ appendString src, 0x20 ≤ x := by
  intro x hx
  unfold appendString at hx
  rcases List.mem_cons.mp hx with rfl | hx
  · decide
  · rcases List.mem_append.mp hx with hx | hx
    · exact appendStringLoop_printable _ _ x hx
    · simp at hx; omega

/-- The fuel of `appendStringLoop` does not run out before the string does:
any two amounts of fuel of at least the length of the string give the same
result. -/
theorem appendStringLoop_fuel :
    ∀ (n m : Nat) (src : List Nat), src.length ≤ n → src.length ≤ m →
      appendStringLoop n src = appendStringLoop m src := by
  intro n
  induction n with
  | zero =>
    intro m src h _
    have : src = [] := List.eq_nil_of_length_eq_zero (Nat.le_zero.mp h)
    subst this
    cases m <;> rfl
  | succ n ih =>
    intro m src hn hm
    cases src with
    | nil => cases m <;> rfl
    | cons b rest =>
      cases m with
      | zero => simp at hm
      | succ m =>
        have h1 : rest.length ≤ n := by simpa using hn
        have h2 : rest.length ≤ m := by simpa using hm
        have hw := DecodeRuneInString_width_pos ((b :: rest).take 4) (by simp)
        have h3 : ((b :: rest).drop (DecodeRuneInString ((b :: rest).take 4)).2).length ≤ n := by
          rw [List.length_drop]; simp only [List.length_cons]; omega
        have h4 : ((b :: rest).drop (DecodeRuneInString ((b :: rest).take 4)).2).length ≤ m := by
          rw [List.length_drop]; simp only [List.length_cons]; omega
        unfold appendStringLoop
        simp only [ih m rest h1 h2, ih m _ h3 h4]

/-- A string of bytes of `htmlSafeSet` is written as it is. -/
theorem appendStringLoop_safe :
    ∀ src : List Nat, (∀ b ∈ src, htmlSafeSet b = true) →
      appendStringLoop src.length src = src := by
  intro src
  induction src with
  | nil => intro _; rfl
  | cons b rest ih =>
    intro h
    have hb : htmlSafeSet b = true := h b (by simp)
    have hlt : b < 0x80 := by simp [htmlSafeSet] at hb; omega
    show appendStringLoop (rest.length + 1) (b :: rest) = b :: rest
    unfold appendStringLoop
    simp only [hlt, hb, if_true]
    rw [ih (fun x hx => h x (List.mem_cons_of_mem b hx))]

theorem Marshal_eq (v : connectOptions) :
    Marshal v = utf8 "\x7b\"kind\":" ++ AppendInt v.Kind ++ utf8 ",\"token\":" ++
      appendString v.Token ++ utf8 ",\"service\":" ++ appendString v.Service ++
      (if v.Private then utf8 ",\"private\":true" else []) ++ utf8 "\x7d" := by
  obtain ⟨kind, token, service, priv⟩ := v
  cases priv <;>
    simp only [Marshal, structEncode, structEncodeLoop, connectOptions.fields, isEmptyValue,
      encodeValue, Bool.false_and, Bool.true_and, if_true, if_false, Bool.false_eq_true,
      beq_self_eq_true, List.append_assoc, List.cons_append, List.append_nil, List.nil_append] <;>
    generalize AppendInt kind = a <;>
    generalize appendString token = t <;>
    generalize appendString service = s <;>
    rfl

/-- The trace of `getConnection` when the dial succeeds: one dial of the data
address and one write of the marshalled options followed by byte 10. -/
theorem getConnection_trace (c : Client) (serviceName token : GoString) (net : NetOutcome)
    (h : net.dialErr = none) :
    (getConnection c serviceName token net).2 =
      [.dial (utf8 "tcp") c.gateHost,
       .write c.gateHost (Marshal { Kind := 3, Token := token, Service := serviceName,
                                    Private := c.«private» } ++ [10])] := by
  unfold getConnection
  rw [h]
  cases net.writeErr <;> rfl

theorem getConnection_trace_dialErr (c : Client) (serviceName token : GoString)
    (net : NetOutcome) (h : net.dialErr ≠ none) :
    (getConnection c serviceName token net).2 = [.dial (utf8 "tcp") c.gateHost] := by
  unfold getConnection
  cases hd : net.dialErr with
  | none => exact absurd hd h
  | some e => rfl

/-- The marshalled handshake holds no byte below `0x20`. -/
theorem Marshal_printable (token serviceName : GoString) (p : Bool) :
    ∀ x ∈ Marshal { Kind := 3, Token := token, Service := serviceName, Private := p },
      0x20 ≤ x := by
  intro x hx
  rw [Marshal_eq] at hx
  simp only [List.mem_append] at hx
  rcases hx with (((((((hx | hx) | hx) | hx) | hx) | hx) | hx) | hx)
  · exact (by decide : ∀ y ∈ utf8 "\x7b\"kind\":", 0x20 ≤ y) x hx
  · exact (by decide : ∀ y ∈ AppendInt 3, 0x20 ≤ y) x hx
  · exact (by decide : ∀ y ∈ utf8 ",\"token\":", 0x20 ≤ y) x hx
  · exact appendString_printable _ x hx
  · exact (by decide : ∀ y ∈ utf8 ",\"service\":", 0x20 ≤ y) x hx
  · exact appendString_printable _ x hx
  · cases p
    · simp at hx
    · exact (by decide : ∀ y ∈ utf8 ",\"private\":true", 0x20 ≤ y) x hx
  · exact (by decide : ∀ y ∈ utf8 "\x7d", 0x20 ≤ y) x hx

/-! ## Lemmas on the reconnect loop -/

theorem reconnectLoop_fails (c : Client) :
    ∀ fails : List InitOutcome, (∀ o ∈ fails, (initPrimary c o).1 ≠ none) →
      reconnectLoop c fails =
        (fails.flatMap (fun o =>
          .sleep Second :: .print (utf8 "reconnect") :: (initPrimary c o).2), false) := by
  intro fails
  induction fails with
  | nil => intro _; rfl
  | cons o rest ih =>
    intro h
    have ho : (initPrimary c o).1 ≠ none := h o (by simp)
    have hrest := ih (fun x hx => h x (List.mem_cons_of_mem o hx))
    unfold reconnectLoop
    cases hr : (initPrimary c o).1 with
    | none => exact absurd hr ho
    | some e =>
      simp only [hr, hrest, List.flatMap_cons, List.cons_append]

theorem reconnectLoop_success (c : Client) (o : InitOutcome) (rest : List InitOutcome)
    (ho : (initPrimary c o).1 = none) :
    ∀ fails : List InitOutcome, (∀ x ∈ fails, (initPrimary c x).1 ≠ none) →
      reconnectLoop c (fails ++ o :: rest) =
        (fails.flatMap (fun x =>
            .sleep Second :: .print (utf8 "reconnect") :: (initPrimary c x).2) ++
          (.sleep Second :: .print (utf8 "reconnect") :: (initPrimary c o).2 ++
            [.print (utf8 "reconnect error <nil>")]), true) := by
  intro fails
  induction fails with
  | nil =>
    intro _
    show reconnectLoop c (o :: rest) = _
    unfold reconnectLoop
    simp only [ho, List.flatMap_nil, List.nil_append]
  | cons a t ih =>
    intro h
    have ha : (initPrimary c a).1 ≠ none := h a (by simp)
    have ht := ih (fun x hx => h x (List.mem_cons_of_mem a hx))
    show reconnectLoop c (a :: (t ++ o :: rest)) = _
    unfold reconnectLoop
    cases hr : (initPrimary c a).1 with
    | none => exact absurd hr ha
    | some e =>
      simp only [hr, ht, List.flatMap_cons, List.cons_append, List.append_assoc]

/-- The events of one `initPrimary` call: a dial of the current control
address, followed by the `Connect` call and the start of the receive loop. -/
theorem initPrimary_events (c : Client) (o : InitOutcome) :
    ∀ e ∈ (initPrimary c o).2,
      e = .dial c.initHost ∨ (∃ req, e = .connect c.initHost req) ∨
      e = .recvLoop c.initHost := by
  intro e he
  cases o <;> simp [initPrimary] at he <;> rcases he with rfl | rfl | rfl <;> simp

/-- The events of the reconnect loop: waits of one second, printed lines and
the events of `initPrimary` on the current control address. -/
theorem reconnectLoop_events (c : Client) :
    ∀ (attempts : List InitOutcome), ∀ e ∈ (reconnectLoop c attempts).1,
      e = .sleep Second ∨ (∃ l, e = .print l) ∨ e = .dial c.initHost ∨
      (∃ req, e = .connect c.initHost req) ∨ e = .recvLoop c.initHost := by
  intro attempts
  induction attempts with
  | nil => intro e he; simp [reconnectLoop] at he
  | cons o rest ih =>
    intro e he
    have hinit := initPrimary_events c o
    unfold reconnectLoop at he
    cases hr : (initPrimary c o).1 with
    | none =>
      simp only [hr, List.mem_cons, List.mem_append, List.not_mem_nil, or_false] at he
      rcases he with (rfl | rfl | he) | rfl
      · left; rfl
      · right; left; exact ⟨_, rfl⟩
      · rcases hinit e he with h | h | h
        · right; right; left; exact h
        · right; right; right; left; exact h
        · right; right; right; right; exact h
      · right; left; exact ⟨_, rfl⟩
    | some err =>
      simp only [hr, List.mem_cons, List.mem_append] at he
      rcases he with (rfl | rfl | he) | he
      · left; rfl
      · right; left; exact ⟨_, rfl⟩
      · rcases hinit e he with h | h | h
        · right; right; left; exact h
        · right; right; right; left; exact h
        · right; right; right; right; exact h
      · exact ih e he

/-- The only error `busyGate` returns is `ErrorAllGatesBusy`. -/
theorem busyGate_error (c : Client) (e : GoError) (h : (busyGate c).1 = some e) :
    e = ErrorAllGatesBusy := by
  rcases newGate_spec c with ⟨h1, _⟩ | ⟨k, g, h1, h2, h3, _⟩
  · rw [busyGate_of_none c h1] at h
    exact (Option.some.inj h).symm
  · rw [busyGate_of_some c k g h1 h2 h3] at h
    cases h

/-- The guard on `status.FromError(err)` comes first: an error that carries a
gRPC status ends the process through `log.Fatal` with the message of the
status, whatever the cancellation signal, the text of the error and the
state of the gates; the client is unchanged and there is no other event. -/
theorem onRecvError_status (c : Client) (err : RecvError) (done : Bool)
    (attempts : List InitOutcome) (code : Nat) (msg : GoString)
    (h : err.status = some (code, msg)) :
    onRecvError c err done attempts = (c, [.fatal msg], .fatal) := by
  unfold onRecvError
  rw [h]

/-- Below the guard, the check of `c.ctx.Done()`: an error without gRPC status
(`io.EOF`) received after cancellation makes the goroutine return with no
event and the client unchanged. -/
theorem onRecvError_no_status_done (c : Client) (err : RecvError)
    (attempts : List InitOutcome) (h : err.status = none) :
    onRecvError c err true attempts = (c, [], .returned) := by
  unfold onRecvError
  rw [h]
  rfl

/-- Below the guard, the reconnect loop: an error without gRPC status
(`io.EOF`) whose text does not contain `service exist`, received while the
context is not cancelled, makes the goroutine run the reconnect loop on the
unchanged client. -/
theorem onRecvError_no_status_reconnect (c : Client) (err : RecvError)
    (attempts : List InitOutcome) (h1 : err.status = none)
    (h2 : Contains err.text (utf8 "service exist") = false) :
    onRecvError c err false attempts =
      (c, (reconnectLoop c attempts).1,
        if (reconnectLoop c attempts).2 then .returned else .reconnecting) := by
  unfold onRecvError
  rw [h1]
  simp only [h2, Bool.false_eq_true, if_false]

/-! ## Lemmas on `InitClient` -/

/-- The region `selectRegion` returns is an element of `topology.Regions`. -/
theorem selectRegion_index (topology : TopologyConfig) (probe : Nat → Probe) (i : Nat)
    (h : selectRegion topology probe = .ok i) : i < topology.Regions.length := by
  have hs := selectRegionLoop_spec probe topology.Regions
  unfold selectRegion at h
  cases hb : selectRegionLoop probe topology.Regions 0 none with
  | none => rw [hb] at h; cases h
  | some p =>
    obtain ⟨b, bt⟩ := p
    rw [hb] at h hs
    cases h
    exact hs.2.1

/-- The client `InitClient` returns when every step succeeds. -/
theorem InitClient_ok (decode : List Nat → Except GoError TopologyConfig)
    (serviceName token : GoString) (options : List ClientOption)
    (get : GoString → HttpExchange) (probe : Nat → Probe) (init : InitOutcome)
    (topology : TopologyConfig) (i : Nat) (region : TopologyRegion)
    (gate0 : TopologyGate) (rest : List TopologyGate)
    (h1 : getTopology decode (newClient serviceName token options) get = .ok topology)
    (h2 : selectRegion topology probe = .ok i)
    (h3 : topology.Regions[i]? = some region)
    (h4 : region.Gates = gate0 :: rest) :
    (InitClient decode serviceName token options get probe init).1 =
      .ok { newClient serviceName token options with
            region := region, gateHost := gate0.SecondaryAddress,
            initHost := gate0.PrimaryAddress } := by
  unfold InitClient
  simp only [h1, h2, h3, h4]

/-- Every client `InitClient` returns is on the first gate of its region. -/
theorem InitClient_ok_inv (decode : List Nat → Except GoError TopologyConfig)
    (serviceName token : GoString) (options : List ClientOption)
    (get : GoString → HttpExchange) (probe : Nat → Probe) (init : InitOutcome) (c : Client)
    (h : (InitClient decode serviceName token options get probe init).1 = .ok c) :
    ∃ (gate0 : TopologyGate) (rest : List TopologyGate), c.region.Gates = gate0 :: rest ∧
      c.initHost = gate0.PrimaryAddress ∧ c.gateHost = gate0.SecondaryAddress := by
  unfold InitClient at h
  cases h1 : getTopology decode (newClient serviceName token options) get with
  | error e => simp only [h1] at h; cases h
  | ok topology =>
    cases h2 : selectRegion topology probe with
    | error e => simp only [h1, h2] at h; cases h
    | ok i =>
      cases h3 : topology.Regions[i]? with
      | none => simp only [h1, h2, h3] at h; cases h
      | some region =>
        cases h4 : region.Gates with
        | nil => simp only [h1, h2, h3, h4] at h; cases h
        | cons gate0 rest =>
          simp only [h1, h2, h3, h4] at h
          have hc := InitResult.ok.inj h
          subst hc
          exact ⟨gate0, rest, h4, rfl, rfl⟩

theorem markBusy_addresses (initHost : GoString) (g : TopologyGate) :
    addresses (markBusy initHost g) = addresses g := by
  unfold markBusy; split <;> rfl

/-- One call of `busyGate` keeps the addresses of every list entry and leaves
the client on an entry of the list. -/
theorem busyGate_paired (c : Client)
    (h : ∃ (j : Nat) (g : TopologyGate), c.region.Gates[j]? = some g ∧
      c.initHost = g.PrimaryAddress ∧ c.gateHost = g.SecondaryAddress) :
    (∀ j : Nat, ((busyGate c).2.region.Gates[j]?).map addresses
      = (c.region.Gates[j]?).map addresses) ∧
    ∃ (j : Nat) (g : TopologyGate), (busyGate c).2.region.Gates[j]? = some g ∧
      (busyGate c).2.initHost = g.PrimaryAddress ∧
      (busyGate c).2.gateHost = g.SecondaryAddress := by
  constructor
  · intro j
    rw [busyGate_gates, List.getElem?_map]
    cases c.region.Gates[j]? with
    | none => rfl
    | some g => simp [markBusy_addresses]
  · rcases newGate_spec c with ⟨hn, _⟩ | ⟨k, g, hn, hg, hc, _⟩
    · obtain ⟨j, g, hg, hi, hs⟩ := h
      rw [busyGate_of_none c hn]
      refine ⟨j, markBusy c.initHost g, by simp [List.getElem?_map, hg], ?_, ?_⟩
      · have := markBusy_addresses c.initHost g
        simp only [addresses, Prod.mk.injEq] at this
        rw [this.1]; exact hi
      · have := markBusy_addresses c.initHost g
        simp only [addresses, Prod.mk.injEq] at this
        rw [this.2]; exact hs
    · rw [busyGate_of_some c k g hn hg hc]
      exact ⟨k, g, by simp [List.getElem?_map, hg, markBusy_of_candidate _ _ hc], rfl, rfl⟩

/-- Any number of `busyGate` calls keeps the addresses of every list entry and
leaves the client on an entry of the list. -/
theorem failovers_paired (c : Client)
    (h : ∃ (j : Nat) (g : TopologyGate), c.region.Gates[j]? = some g ∧
      c.initHost = g.PrimaryAddress ∧ c.gateHost = g.SecondaryAddress) (n : Nat) :
    (∀ j : Nat, ((failovers n c).region.Gates[j]?).map addresses
      = (c.region.Gates[j]?).map addresses) ∧
    ∃ (j : Nat) (g : TopologyGate), (failovers n c).region.Gates[j]? = some g ∧
      (failovers n c).initHost = g.PrimaryAddress ∧
      (failovers n c).gateHost = g.SecondaryAddress := by
  induction n with
  | zero => exact ⟨fun _ => rfl, h⟩
  | succ n ih =>
    rw [failovers_succ]
    have hb := busyGate_paired (failovers n c) ih.2
    exact ⟨fun j => (hb.1 j).trans (ih.1 j), hb.2⟩

theorem sampleDecode_body : sampleDecode sampleBody = .ok sampleTopology := if_pos rfl

theorem getTopology_sample (c : Client) :
    getTopology sampleDecode c sampleGet = .ok sampleTopology := by
  simp only [getTopology, sampleGet, sampleDecode_body]

/-! ## Lemmas on the receive loop and `Accept` -/

theorem getConnection_ok (c : Client) (serviceName token : GoString) (net : NetOutcome)
    (h1 : net.dialErr = none) (h2 : net.writeErr = none) :
    (getConnection c serviceName token net).1 = .ok ⟨c.gateHost⟩ := by
  unfold getConnection
  rw [h1, h2]

theorem sends_append (a b : List LoopEvent) : sends (a ++ b) = sends a ++ sends b := by
  induction a with
  | nil => rfl
  | cons e t ih => cases e <;> simp [sends, ih]

theorem sends_map_net (l : List NetEvent) : sends (l.map .net) = [] := by
  induction l with
  | nil => rfl
  | cons e t ih => simpa [sends] using ih

/-- The sends of the loop on a stream of commands whose network calls all
succeed: the loop ends waiting in `Recv`, the data address is kept, every
connection sent was dialed at the data address, the positions sent are
strictly increasing, they are the positions of the `OPEN` commands, and
their number is the number of `OPEN` commands. -/
theorem recvLoop_sends :
    ∀ (cmds : List (Command × NetOutcome)) (c : Client) (k : Nat),
      (∀ x ∈ cmds, x.2.dialErr = none ∧ x.2.writeErr = none) →
      (recvLoop c (cmds.map fun x => .command x.1 x.2) k).2.2 = .receiving ∧
      (recvLoop c (cmds.map fun x => .command x.1 x.2) k).1.gateHost = c.gateHost ∧
      (∀ kc ∈ sends (recvLoop c (cmds.map fun x => .command x.1 x.2) k).2.1,
        kc.2 = ⟨c.gateHost⟩ ∧ k ≤ kc.1) ∧
      ((sends (recvLoop c (cmds.map fun x => .command x.1 x.2) k).2.1).map Prod.fst).Pairwise
        (· < ·) ∧
      (∀ i : Nat,
        (k + i) ∈ (sends (recvLoop c (cmds.map fun x => .command x.1 x.2) k).2.1).map Prod.fst ↔
          ∃ x, cmds[i]? = some x ∧ x.1.Kind = .OPEN) ∧
      (sends (recvLoop c (cmds.map fun x => .command x.1 x.2) k).2.1).length
        = cmds.countP (fun x => decide (x.1.Kind = .OPEN)) := by
  intro cmds
  induction cmds with
  | nil =>
    intro c k _
    simp [recvLoop, sends]
  | cons x rest ih =>
    intro c k hok
    obtain ⟨resp, net⟩ := x
    have hx := hok (resp, net) (by simp)
    have hrest : ∀ y ∈ rest, y.2.dialErr = none ∧ y.2.writeErr = none :=
      fun y hy => hok y (List.mem_cons_of_mem _ hy)
    simp only [List.map_cons]
    unfold recvLoop
    -- a command that sends nothing: the sends are those of the rest of the stream
    have skip : ∀ c1 : Client, c1.gateHost = c.gateHost → resp.Kind ≠ .OPEN →
        ∀ s : List (Nat × Conn),
          s = sends (recvLoop c1 (rest.map fun x => .command x.1 x.2) (k + 1)).2.1 →
          (∀ kc ∈ s, kc.2 = ⟨c.gateHost⟩ ∧ k ≤ kc.1) ∧
          (s.map Prod.fst).Pairwise (· < ·) ∧
          (∀ i : Nat, (k + i) ∈ s.map Prod.fst ↔
            ∃ y, ((resp, net) :: rest)[i]? = some y ∧ y.1.Kind = .OPEN) ∧
          s.length = ((resp, net) :: rest).countP (fun x => decide (x.1.Kind = .OPEN)) := by
      intro c1 hc1 hk s hs
      obtain ⟨_, _, h3, h4, h5, h6⟩ := ih c1 (k + 1) hrest
      rw [← hs] at h3 h4 h5 h6
      refine ⟨?_, h4, ?_, ?_⟩
      · intro kc hkc
        have := h3 kc hkc
        rw [hc1] at this
        exact ⟨this.1, by omega⟩
      · intro i
        cases i with
        | zero =>
          constructor
          · intro hmem
            obtain ⟨kc, hkc, hfst⟩ := List.mem_map.mp hmem
            have := (h3 kc hkc).2
            omega
          · rintro ⟨y, hy, hyk⟩
            simp only [List.getElem?_cons_zero, Option.some.injEq] at hy
            subst hy
            exact absurd hyk hk
        | succ i =>
          have := h5 i
          rw [show k + 1 + i = k + (i + 1) by omega] at this
          rw [this, List.getElem?_cons_succ]
      · rw [h6, List.countP_cons]
        simp [hk]
    cases hk : resp.Kind with
    | OPEN =>
      obtain ⟨h1, h2, h3, h4, h5, h6⟩ := ih c (k + 1) hrest
      simp only [getConnection_ok c c.serviceName c.token net hx.1 hx.2, sends_append,
        sends_map_net, sends, List.nil_append, List.map_cons, List.length_cons]
      refine ⟨h1, h2, ?_, ?_, ?_, ?_⟩
      · intro kc hkc
        rcases List.mem_cons.mp hkc with rfl | hkc
        · exact ⟨rfl, le_refl k⟩
        · have := h3 kc hkc
          exact ⟨this.1, by omega⟩
      · rw [List.pairwise_cons]
        refine ⟨?_, h4⟩
        intro j hj
        obtain ⟨kc, hkc, hfst⟩ := List.mem_map.mp hj
        have := (h3 kc hkc).2
        omega
      · intro i
        cases i with
        | zero =>
          constructor
          · intro _
            exact ⟨(resp, net), by simp, hk⟩
          · intro _
            simp
        | succ i =>
          have := h5 i
          rw [show k + 1 + i = k + (i + 1) by omega] at this
          rw [List.mem_cons, this, List.getElem?_cons_succ]
          constructor
          · rintro (h | h)
            · omega
            · exact h
          · intro h
            exact Or.inr h
      · rw [h6, List.countP_cons]
        simp [hk]
    | SET_INFO =>
      have hne : resp.Kind ≠ .OPEN := by rw [hk]; simp
      obtain ⟨h1, h2, _⟩ := ih { c with uri := resp.ProjectUri } (k + 1) hrest
      have hs := skip { c with uri := resp.ProjectUri } rfl hne _ rfl
      simp only [sends]
      exact ⟨h1, h2, hs⟩
    | other n =>
      have hne : resp.Kind ≠ .OPEN := by rw [hk]; simp
      obtain ⟨h1, h2, _⟩ := ih c (k + 1) hrest
      have hs := skip c rfl hne _ rfl
      exact ⟨h1, h2, hs⟩

/-- Calls of `Accept` made one after the other, with no cancellation, return
the connections sent, in the order of the sends, one per call. -/
theorem Accepts_sends :
    ∀ (n : Nat) (l : List (Nat × Conn)),
      Accepts n false (l.map fun kc => .send kc.1 kc.2)
        = (l.take n).map fun kc => (some kc, none) := by
  intro n
  induction n with
  | zero => intro l; simp [Accepts]
  | succ n ih =>
    intro l
    cases l with
    | nil => simp [Accepts, Accept, recvAccepter]
    | cons kc rest =>
      simp only [List.map_cons, Accepts, Accept, recvAccepter, Bool.false_eq_true, if_false,
        List.take_succ_cons, ih rest]

/-- While only cancellations come, the receive of `Accept` stays blocked. -/
theorem recvAccepter_cancel_only :
    ∀ pre : List ChanEvent, (∀ e ∈ pre, e = .cancel) → recvAccepter pre = none := by
  intro pre
  induction pre with
  | nil => intro _; rfl
  | cons e t ih =>
    intro h
    have he : e = .cancel := h e (by simp)
    subst he
    simp only [recvAccepter, ih (fun x hx => h x (List.mem_cons_of_mem _ hx))]

/-- Cancellations that come before a send do not end the receive of
`Accept`: it returns the connection of the send. -/
theorem recvAccepter_cancel_then_send (k : Nat) (conn : Conn) (rest : List ChanEvent) :
    ∀ pre : List ChanEvent, (∀ e ∈ pre, e = .cancel) →
      recvAccepter (pre ++ .send k conn :: rest) = some ((k, conn), decide (pre ≠ []), rest) := by
  intro pre
  induction pre with
  | nil => intro _; rfl
  | cons e t ih =>
    intro h
    have he : e = .cancel := h e (by simp)
    subst he
    have hrec := ih (fun x hx => h x (List.mem_cons_of_mem _ hx))
    show (match recvAccepter (t ++ .send k conn :: rest) with
      | none => none
      | some (kc, _, rest1) => some (kc, true, rest1)) = _
    rw [hrec]
    simp
/-! ## Region selection -/

/-- C1: when at least one region's probe succeeds, `selectRegion` returns a
region whose probe succeeded, whose round-trip time is at most that of every
region whose probe succeeded, and strictly below that of every earlier
region whose probe succeeded (so it is the first region with the minimal
time, and a tie keeps the earlier region); a region whose probe failed is
never the one returned. -/
theorem selectRegion_first_minimum (topology : TopologyConfig) (probe : Nat → Probe)
    (h : ∃ i t, i < topology.Regions.length ∧ probe i = .ok t) :
    ∃ b bt, selectRegion topology probe = .ok b ∧ b < topology.Regions.length ∧
      probe b = .ok bt ∧
      (∀ j t, j < topology.Regions.length → probe j = .ok t → bt ≤ t) ∧
      (∀ j t, j < b → probe j = .ok t → bt < t) := by
  have hs := selectRegionLoop_spec probe topology.Regions
  unfold selectRegion
  cases hb : selectRegionLoop probe topology.Regions 0 none with
  | none =>
    rw [hb] at hs
    obtain ⟨i, t, hi, ht⟩ := h
    exact absurd ht (hs i (Nat.zero_le i) hi t)
  | some p =>
    obtain ⟨b, bt⟩ := p
    rw [hb] at hs
    obtain ⟨_, h1, h2, h3, h4⟩ := hs
    exact ⟨b, bt, rfl, h1, h2, fun j t hj ht => h3 j (Nat.zero_le j) hj t ht,
      fun j t hj ht => h4 j (Nat.zero_le j) hj t ht⟩

/-- Witness of C1: of three regions answering in 50 ms, 20 ms and 20 ms the
second is returned. -/
theorem selectRegion_first_minimum_witness :
    (∃ i t, i < threeRegions.Regions.length ∧ threeProbes i = .ok t) ∧
    selectRegion threeRegions threeProbes = .ok 1 ∧
    ∃ b bt, selectRegion threeRegions threeProbes = .ok b ∧
      b < threeRegions.Regions.length ∧ threeProbes b = .ok bt ∧
      (∀ j t, j < threeRegions.Regions.length → threeProbes j = .ok t → bt ≤ t) ∧
      (∀ j t, j < b → threeProbes j = .ok t → bt < t) :=
  ⟨⟨1, 20000000, by decide, rfl⟩, rfl,
    selectRegion_first_minimum threeRegions threeProbes ⟨1, 20000000, by decide, rfl⟩⟩
/-! ## Failover -/

/-- C2: when `busyGate` succeeds, the gate it switches to (control address =
its primary address, data address = its secondary address) was not busy
before the call, is not the previously-current gate, and is not busy after
the call; and a gate that is busy in some state is not selected by any later
`busyGate` call and stays busy. -/
theorem busyGate_never_selects_busy (c : Client) :
    (∀ c1 : Client, busyGate c = (none, c1) →
      ∃ (j : Nat) (g : TopologyGate), newGate c = some j ∧ c.region.Gates[j]? = some g ∧ g.Busy = false ∧
        g.PrimaryAddress ≠ c.initHost ∧ c1.region.Gates[j]? = some g ∧
        c1.initHost = g.PrimaryAddress ∧ c1.gateHost = g.SecondaryAddress) ∧
    (∀ (j : Nat) (g : TopologyGate), c.region.Gates[j]? = some g → g.Busy = true →
      ∀ n : Nat, newGate (failovers n c) ≠ some j ∧
        ∃ g1 : TopologyGate, (failovers n c).region.Gates[j]? = some g1 ∧ g1.Busy = true) := by
  constructor
  · intro c1 h
    rcases newGate_spec c with ⟨h1, _⟩ | ⟨k, g, h1, h2, h3, _⟩
    · rw [busyGate_of_none c h1] at h
      cases h
    · rw [busyGate_of_some c k g h1 h2 h3] at h
      have hc := (candidate_iff _ _).mp h3
      have h4 : c1 = _ := (Prod.mk.inj h).2.symm
      subst h4
      refine ⟨k, g, h1, h2, hc.2, hc.1, ?_, rfl, rfl⟩
      simp [List.getElem?_map, h2, markBusy_of_candidate _ _ h3]
  · intro j g hg hb n
    obtain ⟨g1, h1, h2⟩ := failovers_busy c j g hg hb n
    exact ⟨newGate_not_busy _ j g1 h1 h2, g1, h1, h2⟩

/-- C3 (as amended): when at least one gate other than the current one is not
busy, `busyGate` succeeds and switches the client to the last gate in list
order that is not busy and is not the current gate (control address = its
primary address, data address = its secondary address). -/
theorem busyGate_picks_last_candidate (c : Client)
    (h : ∃ g ∈ c.region.Gates, g.PrimaryAddress ≠ c.initHost ∧ g.Busy = false) :
    ∃ (j : Nat) (g : TopologyGate),
      c.region.Gates[j]? = some g ∧ g.PrimaryAddress ≠ c.initHost ∧ g.Busy = false ∧
      (∀ (k : Nat) (g1 : TopologyGate), j < k → c.region.Gates[k]? = some g1 →
        ¬ (g1.PrimaryAddress ≠ c.initHost ∧ g1.Busy = false)) ∧
      newGate c = some j ∧ (busyGate c).1 = none ∧
      (busyGate c).2.initHost = g.PrimaryAddress ∧
      (busyGate c).2.gateHost = g.SecondaryAddress := by
  rcases newGate_spec c with ⟨_, h2⟩ | ⟨k, g, h1, h2, h3, h4⟩
  · obtain ⟨g, hg, hc⟩ := h
    have := h2 g hg
    rw [(candidate_iff _ _).mpr hc] at this
    cases this
  · have hc := (candidate_iff _ _).mp h3
    refine ⟨k, g, h2, hc.1, hc.2, ?_, h1, ?_, ?_, ?_⟩
    · intro k1 g1 hk hg1 hcand
      have := h4 k1 g1 hk hg1
      rw [(candidate_iff _ _).mpr hcand] at this
      cases this
    · rw [busyGate_of_some c k g h1 h2 h3]
    · rw [busyGate_of_some c k g h1 h2 h3]
    · rw [busyGate_of_some c k g h1 h2 h3]

/-- C4 (as amended): `busyGate` keeps the length of the gate list and the
addresses of every entry; after the call every entry whose primary address is
the current control address is busy, every other entry has the busy flag it
had before, and no flag that was true is cleared; when the current gate is
the entry at index `i` and no other entry has its primary address, the flag
of every entry but `i` is as before. -/
theorem busyGate_marks_current (c : Client) :
    (busyGate c).2.region.Gates.length = c.region.Gates.length ∧
    (∀ (j : Nat) (g : TopologyGate), c.region.Gates[j]? = some g →
      ∃ g1 : TopologyGate, (busyGate c).2.region.Gates[j]? = some g1 ∧
        g1.PrimaryAddress = g.PrimaryAddress ∧ g1.SecondaryAddress = g.SecondaryAddress ∧
        (g.PrimaryAddress = c.initHost → g1.Busy = true) ∧
        (g.PrimaryAddress ≠ c.initHost → g1.Busy = g.Busy) ∧
        (g.Busy = true → g1.Busy = true)) ∧
    (∀ i : Nat,
      (∀ (j : Nat) (g : TopologyGate), c.region.Gates[j]? = some g →
        (g.PrimaryAddress = c.initHost ↔ j = i)) →
      ∀ (j : Nat) (g : TopologyGate), j ≠ i → c.region.Gates[j]? = some g →
        ∃ g1 : TopologyGate, (busyGate c).2.region.Gates[j]? = some g1 ∧ g1.Busy = g.Busy) := by
  have key : ∀ (j : Nat) (g : TopologyGate), c.region.Gates[j]? = some g →
      (busyGate c).2.region.Gates[j]? = some (markBusy c.initHost g) := by
    intro j g hg
    rw [busyGate_gates]
    simp [List.getElem?_map, hg]
  refine ⟨by rw [busyGate_gates]; simp, ?_, ?_⟩
  · intro j g hg
    refine ⟨markBusy c.initHost g, key j g hg, ?_, ?_, ?_, ?_, markBusy_busy _ _⟩
    · unfold markBusy; split <;> rfl
    · unfold markBusy; split <;> rfl
    · intro h; simp [markBusy, h]
    · intro h; simp [markBusy, h]
  · intro i hi j g hj hg
    refine ⟨markBusy c.initHost g, key j g hg, ?_⟩
    have hne : g.PrimaryAddress ≠ c.initHost := fun h => hj ((hi j g hg).mp h)
    simp [markBusy, hne]

/-- C5: when every gate of the list is already busy, `busyGate` returns
`ErrorAllGatesBusy` and the client is the same as before the call. -/
theorem busyGate_all_busy (c : Client) (h : ∀ g ∈ c.region.Gates, g.Busy = true) :
    busyGate c = (some ErrorAllGatesBusy, c) := by
  have hn : newGate c = none := by
    rcases newGate_spec c with ⟨h1, _⟩ | ⟨k, g, _, h2, h3, _⟩
    · exact h1
    · have := h g (List.getElem?_mem h2)
      simp [candidate, this] at h3
  rw [busyGate_of_none c hn]
  have hmap : c.region.Gates.map (markBusy c.initHost) = c.region.Gates := by
    conv_rhs => rw [← List.map_id c.region.Gates]
    apply List.map_congr_left
    intro g hg
    have hb := h g hg
    unfold markBusy
    split
    · cases g; simp_all
    · rfl
  rw [hmap]

/-- Witness of C2: from the first of three gates, the second being busy,
`busyGate` switches to the third, and the busy second gate is not selected
by the two calls that follow. -/
theorem busyGate_never_selects_busy_witness :
    (busyGate secondBusy).1 = none ∧
    (∃ (j : Nat) (g : TopologyGate), newGate secondBusy = some j ∧
      secondBusy.region.Gates[j]? = some g ∧ g.Busy = false ∧
      g.PrimaryAddress ≠ secondBusy.initHost ∧
      (busyGate secondBusy).2.region.Gates[j]? = some g ∧
      (busyGate secondBusy).2.initHost = g.PrimaryAddress ∧
      (busyGate secondBusy).2.gateHost = g.SecondaryAddress) ∧
    secondBusy.region.Gates[1]? = some (gateOf "g2:1" "g2:2" true) ∧
    newGate (failovers 1 secondBusy) ≠ some 1 ∧
    newGate (failovers 2 secondBusy) ≠ some 1 :=
  ⟨by decide,
    (busyGate_never_selects_busy secondBusy).1 (busyGate secondBusy).2 (by decide),
    by decide,
    ((busyGate_never_selects_busy secondBusy).2 1 (gateOf "g2:1" "g2:2" true)
      (by decide) (by decide) 1).1,
    ((busyGate_never_selects_busy secondBusy).2 1 (gateOf "g2:1" "g2:2" true)
      (by decide) (by decide) 2).1⟩

/-- Counterexample to C3 as stated: with three free gates and the client on
the first, the first gate that is neither busy nor current is the second,
and `busyGate` switches the client to the third. -/
theorem busyGate_first_candidate_counterexample :
    threeFree.region.Gates.find? (candidate threeFree.initHost)
      = some (gateOf "g2:1" "g2:2" false) ∧
    (busyGate threeFree).1 = none ∧
    (busyGate threeFree).2.initHost = utf8 "g3:1" ∧
    (busyGate threeFree).2.gateHost = utf8 "g3:2" ∧
    (busyGate threeFree).2.initHost ≠ (gateOf "g2:1" "g2:2" false).PrimaryAddress := by
  decide

/-- Witness of C3 (as amended), on three free gates. -/
theorem busyGate_picks_last_candidate_witness :
    (∃ g ∈ threeFree.region.Gates, g.PrimaryAddress ≠ threeFree.initHost ∧ g.Busy = false) ∧
    ∃ (j : Nat) (g : TopologyGate),
      threeFree.region.Gates[j]? = some g ∧ g.PrimaryAddress ≠ threeFree.initHost ∧
      g.Busy = false ∧
      (∀ (k : Nat) (g1 : TopologyGate), j < k → threeFree.region.Gates[k]? = some g1 →
        ¬ (g1.PrimaryAddress ≠ threeFree.initHost ∧ g1.Busy = false)) ∧
      newGate threeFree = some j ∧ (busyGate threeFree).1 = none ∧
      (busyGate threeFree).2.initHost = g.PrimaryAddress ∧
      (busyGate threeFree).2.gateHost = g.SecondaryAddress :=
  ⟨⟨gateOf "g2:1" "g2:2" false, by decide, by decide, rfl⟩,
    busyGate_picks_last_candidate threeFree
      ⟨gateOf "g2:1" "g2:2" false, by decide, by decide, rfl⟩⟩

/-- Counterexample to C4 as stated: the list has two entries with the primary
address of the current gate, the client being on the first (data address
`g:2`); the call sets the busy flag of both, so the flag of an entry other
than the current gate's changes. -/
theorem busyGate_marks_one_counterexample :
    sharedPrimary.initHost = utf8 "g:1" ∧ sharedPrimary.gateHost = utf8 "g:2" ∧
    sharedPrimary.region.Gates.map (fun g => (g.SecondaryAddress, g.Busy))
      = [(utf8 "g:2", false), (utf8 "g:3", false)] ∧
    (busyGate sharedPrimary).2.region.Gates.map (fun g => (g.SecondaryAddress, g.Busy))
      = [(utf8 "g:2", true), (utf8 "g:3", true)] := by
  decide

/-- Witness of C4 (as amended): on three free gates with the client on the
first, the second gate keeps its flag. -/
theorem busyGate_marks_current_witness :
    threeFree.region.Gates[1]? = some (gateOf "g2:1" "g2:2" false) ∧
    (gateOf "g2:1" "g2:2" false).PrimaryAddress ≠ threeFree.initHost ∧
    ∃ g1 : TopologyGate, (busyGate threeFree).2.region.Gates[1]? = some g1 ∧
      g1.PrimaryAddress = (gateOf "g2:1" "g2:2" false).PrimaryAddress ∧
      g1.SecondaryAddress = (gateOf "g2:1" "g2:2" false).SecondaryAddress ∧
      ((gateOf "g2:1" "g2:2" false).PrimaryAddress = threeFree.initHost → g1.Busy = true) ∧
      ((gateOf "g2:1" "g2:2" false).PrimaryAddress ≠ threeFree.initHost →
        g1.Busy = (gateOf "g2:1" "g2:2" false).Busy) ∧
      ((gateOf "g2:1" "g2:2" false).Busy = true → g1.Busy = true) :=
  ⟨by decide, by decide,
    (busyGate_marks_current threeFree).2.1 1 (gateOf "g2:1" "g2:2" false) (by decide)⟩

/-- Witness of C5: two gates, both busy. -/
theorem busyGate_all_busy_witness :
    (∀ g ∈ allBusy.region.Gates, g.Busy = true) ∧
    busyGate allBusy = (some ErrorAllGatesBusy, allBusy) :=
  ⟨by decide, busyGate_all_busy allBusy (by decide)⟩

/-! ## Data-connection handshake -/

/-- Counterexample to C6 as stated: for token `T`, service `svc` and the
private flag false, the line written has no `private` member. -/
theorem getConnection_private_false_counterexample :
    threeFree.«private» = false ∧
    (getConnection threeFree (utf8 "svc") (utf8 "T") ⟨none, none⟩).2 =
      [.dial (utf8 "tcp") (utf8 "g1:2"),
       .write (utf8 "g1:2") (utf8 "\x7b\"kind\":3,\"token\":\"T\",\"service\":\"svc\"\x7d\n")] ∧
    written (getConnection threeFree (utf8 "svc") (utf8 "T") ⟨none, none⟩).2 ≠
      utf8 "\x7b\"kind\":3,\"token\":\"T\",\"service\":\"svc\",\"private\":false\x7d\n" := by
  decide

/-- C6 (as amended): when the dial succeeds, `getConnection` makes one write
to the dialed connection, of the JSON object with the members `kind` (the
number 3), `token` and `service` (each as the JSON string literal of
`appendString`) in that order, followed by the member `private` with value
`true` only when the private flag is set (no `private` member when it is
false), followed by one byte 10; a token and a service name made of
unescaped bytes appear as they are between double quotes. -/
theorem getConnection_handshake (c : Client) (serviceName token : GoString) (net : NetOutcome)
    (h : net.dialErr = none) :
    ∃ b : List Nat,
      (getConnection c serviceName token net).2 =
        [.dial (utf8 "tcp") c.gateHost, .write c.gateHost b] ∧
      b = utf8 "\x7b\"kind\":3,\"token\":" ++ appendString token ++ utf8 ",\"service\":" ++
          appendString serviceName ++ (if c.«private» then utf8 ",\"private\":true" else []) ++
          utf8 "\x7d" ++ [10] ∧
      ((∀ x ∈ token, htmlSafeSet x = true) → (∀ x ∈ serviceName, htmlSafeSet x = true) →
        b = utf8 "\x7b\"kind\":3,\"token\":\"" ++ token ++ utf8 "\",\"service\":\"" ++
          serviceName ++ utf8 "\"" ++ (if c.«private» then utf8 ",\"private\":true" else []) ++
          utf8 "\x7d" ++ [10]) := by
  refine ⟨_, getConnection_trace c serviceName token net h, ?_, ?_⟩
  · rw [Marshal_eq]
    simp only [(by decide : AppendInt 3 = [51]), List.append_assoc]
    generalize appendString token = t
    generalize appendString serviceName = s
    rfl
  · intro ht hs
    rw [Marshal_eq]
    simp only [appendString, appendStringLoop_safe token ht, appendStringLoop_safe serviceName hs,
      (by decide : AppendInt 3 = [51]), List.append_assoc, List.cons_append, List.nil_append]
    rfl

/-- Witness of C6 (as amended): token `T`, service `svc`, private flag set. -/
theorem getConnection_handshake_witness :
    (⟨none, none⟩ : NetOutcome).dialErr = none ∧
    ∃ b : List Nat,
      (getConnection { threeFree with «private» := true } (utf8 "svc") (utf8 "T") ⟨none, none⟩).2 =
        [.dial (utf8 "tcp") (utf8 "g1:2"), .write (utf8 "g1:2") b] ∧
      b = utf8 "\x7b\"kind\":3,\"token\":\"T\",\"service\":\"svc\",\"private\":true\x7d\n" := by
  refine ⟨rfl, ?_⟩
  obtain ⟨b, h1, h2, _⟩ :=
    getConnection_handshake { threeFree with «private» := true } (utf8 "svc") (utf8 "T")
      ⟨none, none⟩ rfl
  exact ⟨b, h1, by rw [h2]; decide⟩

/-- C7: whatever the token and the service name, the bytes `getConnection`
writes after a successful dial hold exactly one byte 10, which is the last
byte; after a failed dial nothing is written. -/
theorem getConnection_single_line (c : Client) (serviceName token : GoString)
    (net : NetOutcome) :
    (net.dialErr = none →
      (written (getConnection c serviceName token net).2).count 10 = 1 ∧
      (written (getConnection c serviceName token net).2).getLast? = some 10 ∧
      ∃ body : List Nat, written (getConnection c serviceName token net).2 = body ++ [10] ∧
        ∀ x ∈ body, 0x20 ≤ x) ∧
    (net.dialErr ≠ none → written (getConnection c serviceName token net).2 = []) := by
  constructor
  · intro h
    have hp := Marshal_printable token serviceName c.«private»
    have hw : written (getConnection c serviceName token net).2 =
        Marshal { Kind := 3, Token := token, Service := serviceName,
                  Private := c.«private» } ++ [10] := by
      rw [getConnection_trace c serviceName token net h]
      simp [written]
    rw [hw]
    refine ⟨?_, by simp, _, rfl, hp⟩
    rw [List.count_append]
    have : List.count 10 (Marshal { Kind := 3, Token := token, Service := serviceName,
                                    Private := c.«private» }) = 0 := by
      apply List.count_eq_zero.mpr
      intro hmem
      have := hp 10 hmem
      omega
    rw [this]
    rfl
  · intro h
    rw [getConnection_trace_dialErr c serviceName token net h]
    rfl

/-- Witness of C7: a token and a service name with line feeds, quotes and a
backslash. -/
theorem getConnection_single_line_witness :
    (⟨none, none⟩ : NetOutcome).dialErr = none ∧
    utf8 "a\nb\"c\\" = [97, 10, 98, 34, 99, 92] ∧
    (written (getConnection threeFree (utf8 "x\r\ny") (utf8 "a\nb\"c\\") ⟨none, none⟩).2).count 10
      = 1 ∧
    (written (getConnection threeFree (utf8 "x\r\ny") (utf8 "a\nb\"c\\") ⟨none, none⟩).2).getLast?
      = some 10 :=
  ⟨rfl, by decide,
    ((getConnection_single_line threeFree (utf8 "x\r\ny") (utf8 "a\nb\"c\\") ⟨none, none⟩).1
      rfl).1,
    ((getConnection_single_line threeFree (utf8 "x\r\ny") (utf8 "a\nb\"c\\") ⟨none, none⟩).1
      rfl).2.1⟩

/-! ## Errors of the control stream -/

/-- C8, the code at a failing input: the cancellation signal has fired and
`Recv` returns the error of the cancelled stream, which carries the gRPC
status `Canceled`.  The guard on `status.FromError` runs before the check of
`c.ctx.Done()`, so the goroutine calls `log.Fatal` with the message of the
status instead of returning silently.  The check of `c.ctx.Done()` written
below the guard stops the goroutine silently only for `io.EOF`. -/
theorem onRecvError_cancelled_fatal :
    canceledError.status = some (1, utf8 "context canceled") ∧
    onRecvError threeFree canceledError true [.ok] =
      (threeFree, [.fatal (utf8 "context canceled")], .fatal) ∧
    eofError.status = none ∧
    onRecvError threeFree eofError true [.ok] = (threeFree, [], .returned) := by
  decide

/-- C9, the code at a failing input: the transport drops and `Recv` returns an
error with gRPC status `Unavailable`; its text names neither an existing
service nor a token or service-name failure, and the cancellation signal has
not fired.  The guard on `status.FromError` sends it to `log.Fatal`, with no
wait and no reconnect attempt.  The reconnect loop written below the guard
(wait one second, `initPrimary`, leave on success) runs only for `io.EOF`. -/
theorem onRecvError_unavailable_fatal :
    unavailableError.status = some (14, utf8 "transport is closing") ∧
    Contains unavailableError.text (utf8 "service exist") = false ∧
    Contains unavailableError.text (utf8 "cannot get token") = false ∧
    Contains unavailableError.text (utf8 "must contain English letters and digits only")
      = false ∧
    onRecvError threeFree unavailableError false [.connectError ⟨utf8 "unavailable"⟩, .ok] =
      (threeFree, [.fatal (utf8 "transport is closing")], .fatal) ∧
    onRecvError threeFree eofError false [.connectError ⟨utf8 "unavailable"⟩, .ok] =
      (threeFree,
        [.sleep Second, .print (utf8 "reconnect"), .dial (utf8 "g1:1"),
          .connect (utf8 "g1:1") ⟨[], [], false, []⟩,
          .sleep Second, .print (utf8 "reconnect"), .dial (utf8 "g1:1"),
          .connect (utf8 "g1:1") ⟨[], [], false, []⟩, .recvLoop (utf8 "g1:1"),
          .print (utf8 "reconnect error <nil>")],
        .returned) := by
  decide

/-- C10, the code at a failing input: the gate rejects the registration with a
gRPC status whose message is `service exist`; the text of the error contains
`service exist` and the cancellation signal has not fired.  The guard on
`status.FromError` sends it to `log.Fatal`: `busyGate` is not called, no gate
is marked busy and no registration is attempted on another gate, although
`busyGate` on this client would succeed and switch to a free gate. -/
theorem onRecvError_service_exist_fatal :
    serviceExistStatus.status = some (6, utf8 "service exist") ∧
    Contains serviceExistStatus.text (utf8 "service exist") = true ∧
    onRecvError threeFree serviceExistStatus false [.ok] =
      (threeFree, [.fatal (utf8 "service exist")], .fatal) ∧
    (busyGate threeFree).1 = none ∧
    (busyGate threeFree).2.initHost = utf8 "g3:1" := by
  decide

/-! ## Start-up: topology fetch, region selection, first gate -/

/-- C14: whatever the service name, the token and the options (`WithGateHost`
and `WithInitHost` included), when the topology fetch and the region
selection succeed with a region that has at least one gate, `InitClient`
returns a client whose control address is the primary address and whose data
address is the secondary address of the first gate of the selected region;
and every client `InitClient` returns is on the first gate of its region. -/
theorem InitClient_first_gate (decode : List Nat → Except GoError TopologyConfig)
    (serviceName token : GoString) (options : List ClientOption)
    (get : GoString → HttpExchange) (probe : Nat → Probe) (init : InitOutcome)
    (topology : TopologyConfig) (i : Nat) (region : TopologyRegion)
    (gate0 : TopologyGate) (rest : List TopologyGate)
    (h1 : getTopology decode (newClient serviceName token options) get = .ok topology)
    (h2 : selectRegion topology probe = .ok i)
    (h3 : topology.Regions[i]? = some region)
    (h4 : region.Gates = gate0 :: rest) :
    (∃ c : Client, (InitClient decode serviceName token options get probe init).1 = .ok c ∧
      c.region = region ∧ c.initHost = gate0.PrimaryAddress ∧
      c.gateHost = gate0.SecondaryAddress) ∧
    (∀ c : Client, (InitClient decode serviceName token options get probe init).1 = .ok c →
      ∃ (g : TopologyGate) (gs : List TopologyGate), c.region.Gates = g :: gs ∧
        c.initHost = g.PrimaryAddress ∧ c.gateHost = g.SecondaryAddress) := by
  refine ⟨⟨_, InitClient_ok decode serviceName token options get probe init topology i region
    gate0 rest h1 h2 h3 h4, rfl, rfl, rfl⟩, ?_⟩
  intro c hc
  exact InitClient_ok_inv decode serviceName token options get probe init c hc

/-- Witness of C14: the options `WithGateHost` and `WithInitHost` name other
hosts, and the client is on the first gate of the region all the same. -/
theorem InitClient_first_gate_witness :
    getTopology sampleDecode
      (newClient (utf8 "svc") (utf8 "T")
        [.WithGateHost (utf8 "x:2"), .WithInitHost (utf8 "x:1")]) sampleGet
      = .ok sampleTopology ∧
    (newClient (utf8 "svc") (utf8 "T")
      [.WithGateHost (utf8 "x:2"), .WithInitHost (utf8 "x:1")]).gateHost = utf8 "x:2" ∧
    ∃ c : Client,
      (InitClient sampleDecode (utf8 "svc") (utf8 "T")
        [.WithGateHost (utf8 "x:2"), .WithInitHost (utf8 "x:1")] sampleGet steadyProbe .ok).1
        = .ok c ∧
      c.region = ⟨utf8 "eu", utf8 "eu:9", [gateOf "g1:1" "g1:2" false, gateOf "g2:1" "g2:2" false]⟩ ∧
      c.initHost = (gateOf "g1:1" "g1:2" false).PrimaryAddress ∧
      c.gateHost = (gateOf "g1:1" "g1:2" false).SecondaryAddress :=
  ⟨getTopology_sample _, by decide,
    (InitClient_first_gate sampleDecode (utf8 "svc") (utf8 "T")
      [.WithGateHost (utf8 "x:2"), .WithInitHost (utf8 "x:1")] sampleGet steadyProbe .ok
      sampleTopology 0 ⟨utf8 "eu", utf8 "eu:9", [gateOf "g1:1" "g1:2" false, gateOf "g2:1" "g2:2" false]⟩
      (gateOf "g1:1" "g1:2" false) [gateOf "g2:1" "g2:2" false]
      (getTopology_sample _) rfl rfl rfl).1⟩

/-- C15: for every topology, the empty one included, `selectRegion` returns
an error exactly when no region of the list has a probe whose connection and
ping both succeed; so failed probes alone never make the selection fail when
some region answers. -/
theorem selectRegion_error_iff (topology : TopologyConfig) (probe : Nat → Probe) :
    (∃ err : GoError, selectRegion topology probe = .error err) ↔
      ∀ i : Nat, i < topology.Regions.length → probe i = .dialError ∨ probe i = .pingError := by
  have hs := selectRegionLoop_spec probe topology.Regions
  unfold selectRegion
  cases hb : selectRegionLoop probe topology.Regions 0 none with
  | none =>
    rw [hb] at hs
    constructor
    · intro _ i hi
      have := hs i (Nat.zero_le i) hi
      cases hp : probe i with
      | dialError => left; rfl
      | pingError => right; rfl
      | ok t => exact absurd hp (this t)
    · intro _
      exact ⟨_, rfl⟩
  | some p =>
    obtain ⟨b, bt⟩ := p
    rw [hb] at hs
    constructor
    · rintro ⟨err, herr⟩
      cases herr
    · intro hall
      rcases hall b hs.2.1 with h | h <;> rw [hs.2.2.1] at h <;> cases h

/-- Witness of C15: the empty topology gives the error; three regions of
which only the last answers give that region. -/
theorem selectRegion_error_iff_witness :
    (∃ err : GoError, selectRegion ⟨[]⟩ steadyProbe = .error err) ∧
    selectRegion threeRegions
      (fun i => if i = 0 then .dialError else if i = 1 then .pingError else .ok 70000000)
      = .ok 2 :=
  ⟨(selectRegion_error_iff ⟨[]⟩ steadyProbe).mpr (fun i hi => absurd hi (Nat.not_lt_zero i)),
    rfl⟩

/-- Counterexample to C16 as stated: the server answers with status 500 and a
body that decodes as a topology document, and `getTopology` returns that
topology without error. -/
theorem getTopology_status_counterexample :
    serverErrorGet threeFree.topologyAddress = .response 500 sampleBody ∧
    sampleDecode sampleBody = .ok sampleTopology ∧
    getTopology sampleDecode threeFree serverErrorGet = .ok sampleTopology :=
  ⟨rfl, sampleDecode_body, by simp only [getTopology, serverErrorGet, sampleDecode_body]⟩

/-- C16 (as amended): `getTopology` returns the error of a transport error;
for every response, whatever its status code, it returns what decoding the
body gives: an error for a body that fails to decode, the topology for a body
that decodes. -/
theorem getTopology_result (decode : List Nat → Except GoError TopologyConfig) (c : Client)
    (get : GoString → HttpExchange) :
    (∀ err : GoError, get c.topologyAddress = .transportError err →
      getTopology decode c get = .error err) ∧
    (∀ (statusCode : Nat) (body : List Nat),
      get c.topologyAddress = .response statusCode body →
      getTopology decode c get = decode body) := by
  constructor
  · intro err h
    unfold getTopology
    rw [h]
  · intro statusCode body h
    unfold getTopology
    rw [h]

/-- Witness of C16 (as amended): status 200 with the sample document, and
status 404 with a body that does not decode. -/
theorem getTopology_result_witness :
    getTopology sampleDecode threeFree sampleGet = sampleDecode sampleBody ∧
    getTopology sampleDecode threeFree (fun _ => .response 404 (utf8 "not found"))
      = sampleDecode (utf8 "not found") :=
  ⟨(getTopology_result sampleDecode threeFree sampleGet).2 200 sampleBody rfl,
    (getTopology_result sampleDecode threeFree (fun _ => .response 404 (utf8 "not found"))).2
      404 (utf8 "not found") rfl⟩

/-- C17: in every client state reached from a client that `InitClient`
returned by any number of `busyGate` calls, the client is on an entry of its
gate list that has the addresses of the entry at the same position of the
selected region: the control address `initHost` is the primary address of
that entry, the data address `gateHost` its secondary address, and
`getConnection` dials that secondary address. -/
theorem InitClient_addresses_paired (decode : List Nat → Except GoError TopologyConfig)
    (serviceName token : GoString) (options : List ClientOption)
    (get : GoString → HttpExchange) (probe : Nat → Probe) (init : InitOutcome) (c : Client)
    (h : (InitClient decode serviceName token options get probe init).1 = .ok c) (n : Nat) :
    ∃ (j : Nat) (g0 g : TopologyGate),
      c.region.Gates[j]? = some g0 ∧ (failovers n c).region.Gates[j]? = some g ∧
      g.PrimaryAddress = g0.PrimaryAddress ∧ g.SecondaryAddress = g0.SecondaryAddress ∧
      (failovers n c).initHost = g.PrimaryAddress ∧
      (failovers n c).gateHost = g.SecondaryAddress ∧
      ∀ (sn tok : GoString) (net : NetOutcome),
        (getConnection (failovers n c) sn tok net).2.head?
          = some (.dial (utf8 "tcp") g.SecondaryAddress) := by
  obtain ⟨gate0, rest, hg, hi, hs⟩ :=
    InitClient_ok_inv decode serviceName token options get probe init c h
  have h0 : ∃ (j : Nat) (g : TopologyGate), c.region.Gates[j]? = some g ∧
      c.initHost = g.PrimaryAddress ∧ c.gateHost = g.SecondaryAddress :=
    ⟨0, gate0, by rw [hg]; simp, hi, hs⟩
  obtain ⟨hmap, j, g, hj, hji, hjs⟩ := failovers_paired c h0 n
  have hm := hmap j
  rw [hj] at hm
  cases hc : c.region.Gates[j]? with
  | none => rw [hc] at hm; cases hm
  | some g0 =>
    rw [hc] at hm
    simp only [Option.map_some', Option.some.injEq, addresses, Prod.mk.injEq] at hm
    refine ⟨j, g0, g, hc, hj, hm.1, hm.2, hji, hjs, ?_⟩
    intro sn tok net
    rw [← hjs]
    unfold getConnection
    cases net.dialErr with
    | some e => rfl
    | none => cases net.writeErr <;> rfl

/-- Witness of C17: the client built from the sample topology, after two
`busyGate` calls (the first switches to the second gate, the second fails
with every gate busy). -/
theorem InitClient_addresses_paired_witness :
    (InitClient sampleDecode (utf8 "svc") (utf8 "T") [] sampleGet steadyProbe .ok).1
      = .ok sampleClient ∧
    (busyGate sampleClient).1 = none ∧
    (busyGate (busyGate sampleClient).2).1 = some ErrorAllGatesBusy ∧
    ∃ (j : Nat) (g0 g : TopologyGate),
      sampleClient.region.Gates[j]? = some g0 ∧
      (failovers 2 sampleClient).region.Gates[j]? = some g ∧
      g.PrimaryAddress = g0.PrimaryAddress ∧ g.SecondaryAddress = g0.SecondaryAddress ∧
      (failovers 2 sampleClient).initHost = g.PrimaryAddress ∧
      (failovers 2 sampleClient).gateHost = g.SecondaryAddress ∧
      ∀ (sn tok : GoString) (net : NetOutcome),
        (getConnection (failovers 2 sampleClient) sn tok net).2.head?
          = some (.dial (utf8 "tcp") g.SecondaryAddress) :=
  ⟨InitClient_ok sampleDecode (utf8 "svc") (utf8 "T") [] sampleGet steadyProbe .ok
      sampleTopology 0 _ _ _ (getTopology_sample _) rfl rfl rfl,
    by decide, by decide,
    InitClient_addresses_paired sampleDecode (utf8 "svc") (utf8 "T") [] sampleGet steadyProbe .ok
      sampleClient
      (InitClient_ok sampleDecode (utf8 "svc") (utf8 "T") [] sampleGet steadyProbe .ok
        sampleTopology 0 _ _ _ (getTopology_sample _) rfl rfl rfl) 2⟩

/-! ## Commands of the control stream and the hand-off to `Accept` -/

/-- C11, the code at a failing input: the stream delivers an `OPEN` whose dial
is refused, then a `SET_INFO`, then an `OPEN` whose network calls would
succeed.  The goroutine prints `cannot get connection` and returns: the URI
of the `SET_INFO` is not stored and no connection is sent for the second
`OPEN`.  The same happens when the handshake write fails.  Without the failed
`OPEN` the two later commands are handled. -/
theorem recvLoop_failed_open_returns :
    recvLoop threeFree
        [.command openCommand dialRefused, .command setInfoCommand netOk,
         .command openCommand netOk] 0
      = (threeFree,
          [.net (.dial (utf8 "tcp") (utf8 "g1:2")), .print (utf8 "cannot get connection")],
          .returned) ∧
    (recvLoop threeFree
        [.command openCommand writeBroken, .command setInfoCommand netOk,
         .command openCommand netOk] 0).2.2 = .returned ∧
    (recvLoop threeFree
        [.command openCommand writeBroken, .command setInfoCommand netOk,
         .command openCommand netOk] 0).1.uri = [] ∧
    sends (recvLoop threeFree
        [.command openCommand writeBroken, .command setInfoCommand netOk,
         .command openCommand netOk] 0).2.1 = [] ∧
    (recvLoop threeFree [.command setInfoCommand netOk, .command openCommand netOk] 1).1.uri
      = utf8 "svc.pinge.link" ∧
    sends (recvLoop threeFree [.command setInfoCommand netOk, .command openCommand netOk] 1).2.1
      = [(2, ⟨utf8 "g1:2"⟩)] := by
  decide

/-- C12: on a stream of commands whose dials and handshake writes all
succeed, the receive loop handles every command (it ends waiting in `Recv`);
the positions of the commands for which it sends a connection on `accepter`
are strictly increasing and are exactly the positions of the `OPEN` commands,
so there is one send per `OPEN`, none for another command, in arrival order
and as many as there are `OPEN` commands; every connection was dialed at the
data address; and `n` calls of `Accept` made one after the other return the
first `n` of these connections in that order, each once, without error. -/
theorem recvLoop_open_order (c : Client) (cmds : List (Command × NetOutcome))
    (h : ∀ x ∈ cmds, x.2.dialErr = none ∧ x.2.writeErr = none) :
    (recvLoop c (cmds.map fun x => .command x.1 x.2) 0).2.2 = .receiving ∧
    ((sends (recvLoop c (cmds.map fun x => .command x.1 x.2) 0).2.1).map Prod.fst).Pairwise
      (· < ·) ∧
    (∀ i : Nat,
      i ∈ (sends (recvLoop c (cmds.map fun x => .command x.1 x.2) 0).2.1).map Prod.fst ↔
        ∃ x, cmds[i]? = some x ∧ x.1.Kind = .OPEN) ∧
    (sends (recvLoop c (cmds.map fun x => .command x.1 x.2) 0).2.1).length
      = cmds.countP (fun x => decide (x.1.Kind = .OPEN)) ∧
    (∀ kc ∈ sends (recvLoop c (cmds.map fun x => .command x.1 x.2) 0).2.1,
      kc.2 = ⟨c.gateHost⟩) ∧
    (∀ n : Nat,
      Accepts n false
        ((sends (recvLoop c (cmds.map fun x => .command x.1 x.2) 0).2.1).map
          fun kc => .send kc.1 kc.2)
      = ((sends (recvLoop c (cmds.map fun x => .command x.1 x.2) 0).2.1).take n).map
          fun kc => (some kc, none)) := by
  obtain ⟨h1, _, h3, h4, h5, h6⟩ := recvLoop_sends cmds c 0 h
  refine ⟨h1, h4, ?_, h6, fun kc hkc => (h3 kc hkc).1, fun n => Accepts_sends n _⟩
  intro i
  have := h5 i
  rw [Nat.zero_add] at this
  exact this

/-- Witness of C12: `OPEN`, `SET_INFO`, `OPEN`, `OPEN`; three calls of
`Accept` return the connections of positions 0, 2 and 3. -/
theorem recvLoop_open_order_witness :
    (∀ x ∈ [(openCommand, netOk), (setInfoCommand, netOk), (openCommand, netOk),
        (openCommand, netOk)], x.2.dialErr = none ∧ x.2.writeErr = none) ∧
    sends (recvLoop threeFree
      ([(openCommand, netOk), (setInfoCommand, netOk), (openCommand, netOk),
        (openCommand, netOk)].map fun x => .command x.1 x.2) 0).2.1
      = [(0, ⟨utf8 "g1:2"⟩), (2, ⟨utf8 "g1:2"⟩), (3, ⟨utf8 "g1:2"⟩)] ∧
    Accepts 3 false
        ((sends (recvLoop threeFree
          ([(openCommand, netOk), (setInfoCommand, netOk), (openCommand, netOk),
            (openCommand, netOk)].map fun x => .command x.1 x.2) 0).2.1).map
          fun kc => .send kc.1 kc.2)
      = ((sends (recvLoop threeFree
          ([(openCommand, netOk), (setInfoCommand, netOk), (openCommand, netOk),
            (openCommand, netOk)].map fun x => .command x.1 x.2) 0).2.1).take 3).map
          fun kc => (some kc, none) :=
  ⟨by decide, by decide,
    (recvLoop_open_order threeFree
      [(openCommand, netOk), (setInfoCommand, netOk), (openCommand, netOk),
        (openCommand, netOk)] (by decide)).2.2.2.2.2 3⟩

/-- Counterexample to C13 as stated: the call starts before the cancellation
signal fires, the signal fires, and then a connection arrives; `Accept`
returns that connection and no error.  When no connection arrives after the
signal, the call does not return. -/
theorem Accept_cancel_while_waiting_counterexample :
    Accept false [.cancel, .send 0 ⟨utf8 "g1:2"⟩]
      = some ((some (0, ⟨utf8 "g1:2"⟩), none), true, []) ∧
    Accept false [.cancel] = none :=
  ⟨rfl, rfl⟩

/-- C13 (as amended): when the cancellation signal has already fired at the
moment of the call, `Accept` returns the error `context deadline` and no
connection, and takes nothing from the channel; when it has not, the call
waits for the next send whatever happens to the signal meanwhile: it returns
the connection of that send without error, and it stays blocked while no
send comes. -/
theorem Accept_cancelled (later : List ChanEvent) :
    Accept true later = some ((none, some ⟨utf8 "context deadline"⟩), true, later) ∧
    (∀ (pre rest : List ChanEvent) (k : Nat) (conn : Conn), (∀ e ∈ pre, e = .cancel) →
      Accept false (pre ++ .send k conn :: rest)
        = some ((some (k, conn), none), decide (pre ≠ []), rest)) ∧
    (∀ pre : List ChanEvent, (∀ e ∈ pre, e = .cancel) → Accept false pre = none) := by
  refine ⟨rfl, ?_, ?_⟩
  · intro pre rest k conn hpre
    unfold Accept
    simp only [Bool.false_eq_true, if_false, recvAccepter_cancel_then_send k conn rest pre hpre]
  · intro pre hpre
    unfold Accept
    simp only [Bool.false_eq_true, if_false, recvAccepter_cancel_only pre hpre]

/-- Witness of C13 (as amended): a connection waits in the channel; after
cancellation `Accept` returns the error and leaves it there. -/
theorem Accept_cancelled_witness :
    Accept true [.send 0 ⟨utf8 "g1:2"⟩]
      = some ((none, some ⟨utf8 "context deadline"⟩), true, [.send 0 ⟨utf8 "g1:2"⟩]) ∧
    (∀ e ∈ [ChanEvent.cancel], e = .cancel) ∧
    Accept false ([.cancel] ++ .send 0 ⟨utf8 "g1:2"⟩ :: [])
      = some ((some (0, ⟨utf8 "g1:2"⟩), none), decide ([ChanEvent.cancel] ≠ []), []) :=
  ⟨(Accept_cancelled [.send 0 ⟨utf8 "g1:2"⟩]).1, by decide,
    (Accept_cancelled []).2.1 [.cancel] [] 0 ⟨utf8 "g1:2"⟩ (by decide)⟩

end Pinge
